import Mathlib

/-!
Shallow embedding of the FlowGraph editor node (`FlowGraphNode.cpp`): the pin data
model, the pin matching and diff helpers, the reconstruction orchestrator
(`ReconstructNode` with its guard, rewiring and orphan-retention passes), and the
sub-node (add-on) hierarchy logic (`SetParentNodeForSubNode`, `IsAncestorNode`,
`CanAcceptSubNodeAsChild`, `RebuildRuntimeAddOnsFromEditorSubNodes`).

The embedding is single-node for the pin machinery: connection endpoints
(`UEdGraphPin::LinkedTo`) are opaque references to pins of other nodes.
-/

/-- Pin direction (`EEdGraphPinDirection`). -/
inductive EGPDDirection : Type
  | input
  | output
deriving DecidableEq

/-- `ESaveOrphanPinMode` (engine enum). The UFlowGraphNode constructor selects
`SaveAll`. -/
inductive ESaveOrphanPinMode : Type
  | SaveNone
  | SaveAll
  | SaveAllButExec
deriving DecidableEq

/-- `FFlowPin`: a pin descriptor of the runtime Flow node (name, data type, display
data). `pinName = none` stands for `NAME_None`. -/
structure FFlowPin : Type where
  pinName : Option String
  pinType : String
  pinFriendlyName : String
  pinToolTip : String
deriving DecidableEq

def FFlowPin.GetPinType (p : FFlowPin) : String := p.pinType

/-- Modelled from the spec: `FFlowPin::IsValid` lives in the runtime Flow module, which
is not under src/. The spec's data model makes `name` the identity of a descriptor, and
`CreateInputPin`/`CreateOutputPin` skip descriptors whose name is `NAME_None`, so
validity is "the descriptor has a real name". -/
def FFlowPin.IsValid (p : FFlowPin) : Bool := p.pinName.isSome

/-- Modelled from the spec: `FFlowPin::GetPinCategoryFromPinType` is runtime-module code
not under src/; it maps a flow pin data type to an engine pin category. No claim
observes the mapping itself, so it is embedded as the type name. -/
def FFlowPin.GetPinCategoryFromPinType (t : String) : String := t

/-- `UEdGraphPin` (engine graph pin), restricted to the fields `FlowGraphNode.cpp`
reads or writes. `linkedTo` holds opaque references to pins of other nodes.
`persistentData` stands for the persistent display/default-value payload moved by
`MovePersistentDataFromOldPin`. -/
structure UEdGraphPin : Type where
  pinName : Option String
  direction : EGPDDirection
  pinType : String
  pinFriendlyName : String
  pinToolTip : String
  linkedTo : List Nat
  bOrphanedPin : Bool
  bNotConnectable : Bool
  bHidden : Bool
  bSavePinIfOrphaned : Bool
  parentPin : Option Nat
  persistentData : String
deriving DecidableEq

/-- `UFlowNode` (runtime node instance), restricted to what `FlowGraphNode.cpp` uses:
the stored pin-descriptor arrays and the class-level capability flags. -/
structure UFlowNode : Type where
  inputPins : List FFlowPin
  outputPins : List FFlowPin
  supportsContextPins : Bool
  canRefreshContextPinsOnLoad : Bool
  canUserAddInput : Bool
  canUserAddOutput : Bool
deriving DecidableEq

/-- The graph node's `NodeInstance` reference: a `UFlowNode`, a `UFlowNodeAddOn`
(identified by id; the pin code only ever casts it, unsuccessfully), or null via
`Option`. -/
inductive FlowNodeInstance : Type
  | flowNode (n : UFlowNode)
  | addOn (addOnId : Nat)
deriving DecidableEq

/-- `UFlowGraphNode` state: the master pin array, the two direction views, the
`NodeInstance` reference, and the reconciliation flags. `hasOwnerGraph` models
`IsValid(GetGraph())`. -/
structure GraphNodeState : Type where
  pins : List UEdGraphPin
  inputPins : List UEdGraphPin
  outputPins : List UEdGraphPin
  nodeInstance : Option FlowNodeInstance
  hasOwnerGraph : Bool
  bIsReconstructingNode : Bool
  bIsDestroyingNode : Bool
  bNeedsFullReconstruction : Bool
  bDisableOrphanPinSaving : Bool
  orphanedPinSaveMode : ESaveOrphanPinMode
  bIsSubNode : Bool
  parentNode : Option Nat
deriving DecidableEq

/-- Global editor state and the external collaborators of one graph node: engine
globals (`GIsTransacting`, `UEdGraphPin::AreOrphanPinsEnabled`), the owning
`UFlowGraph`'s gates, the class-default (CDO) and context pin providers, and the
owning asset's managed-pin recompute. Context pins depend on external asset state
(spec 6), so with no intervening external change they are fixed sequences. -/
structure FlowEditorEnv : Type where
  gIsTransacting : Bool
  areOrphanPinsEnabled : Bool
  isSavingGraph : Bool
  isLockedGraph : Bool
  isLoadingGraph : Bool
  hasFlowAsset : Bool
  cdoInputPins : List FFlowPin
  cdoOutputPins : List FFlowPin
  contextInputs : List FFlowPin
  contextOutputs : List FFlowPin
  updateManagedPins : UFlowNode → UFlowNode

/-- `TArray::RemoveAtSwap`: replace slot `i` with the last element and drop the last. -/
def removeAtSwap {α : Type} (a : List α) (i : Nat) : List α :=
  match a.getLast? with
  | none => a
  | some last => (a.set i last).dropLast

/-- The backward sweep shared by both `CleanInvalidPins` overloads: visit indices
`fuel - 1, …, 0` and remove elements satisfying `bad` with `RemoveAtSwap`. -/
def cleanBySwapAux {α : Type} (bad : α → Bool) : List α → Nat → List α
  | a, 0 => a
  | a, i + 1 =>
    match a[i]? with
    | none => cleanBySwapAux bad a i
    | some x => cleanBySwapAux bad (if bad x then removeAtSwap a i else a) i

def cleanBySwap {α : Type} (bad : α → Bool) (a : List α) : List α :=
  cleanBySwapAux bad a a.length

/-- `CleanInvalidPins` overload for `FFlowPin` arrays: strips invalid descriptors. -/
def CleanInvalidPinsFlow (a : List FFlowPin) : List FFlowPin :=
  cleanBySwap (fun p => !p.IsValid) a

/-- `CleanInvalidPins` overload for `UEdGraphPin` arrays: strips orphaned pins. -/
def CleanInvalidPinsGraph (a : List UEdGraphPin) : List UEdGraphPin :=
  cleanBySwap (fun p => p.bOrphanedPin) a

/-- `CheckPinsMatch(TArray<FFlowPin>, TArray<FFlowPin>)`: same count, and every left
descriptor has a same-name-and-type counterpart on the right. -/
def CheckPinsMatch (leftPins rightPins : List FFlowPin) : Bool :=
  decide (leftPins.length = rightPins.length) &&
    leftPins.all (fun left =>
      rightPins.any (fun right =>
        decide (left.pinName = right.pinName) && decide (left.GetPinType = right.GetPinType)))

/-- `CheckPinsMatch(TArray<UEdGraphPin*>, TArray<FFlowPin>)`: same count, and every
node pin's name occurs among the graph pins. -/
def CheckPinsMatchGraph (graphPins : List UEdGraphPin) (nodePins : List FFlowPin) : Bool :=
  decide (graphPins.length = nodePins.length) &&
    nodePins.all (fun flowNodePin =>
      graphPins.any (fun graphNodePin => decide (graphNodePin.pinName = flowNodePin.pinName)))

def UFlowGraphNode.GetPinCategoryFromFlowPin (flowPin : FFlowPin) : String :=
  FFlowPin.GetPinCategoryFromPinType flowPin.GetPinType

/-- The pin object built by `CreateInputPin`/`CreateOutputPin` via `CreatePin`
(fresh engine pin, type from the descriptor, friendly name and tooltip copied). -/
def mkEdGraphPinFromFlowPin (dir : EGPDDirection) (flowPin : FFlowPin) : UEdGraphPin :=
  { pinName := flowPin.pinName
    direction := dir
    pinType := UFlowGraphNode.GetPinCategoryFromFlowPin flowPin
    pinFriendlyName := flowPin.pinFriendlyName
    pinToolTip := flowPin.pinToolTip
    linkedTo := []
    bOrphanedPin := false
    bNotConnectable := false
    bHidden := false
    bSavePinIfOrphaned := true
    parentPin := none
    persistentData := "" }

/-- `UFlowGraphNode::CreateInputPin` (with default `Index = INDEX_NONE`, i.e. append):
skips `NAME_None` descriptors, otherwise appends a fresh input pin to the master array
and the input view. -/
def UFlowGraphNode.CreateInputPin (gn : GraphNodeState) (flowPin : FFlowPin) : GraphNodeState :=
  if flowPin.pinName = none then gn
  else
    let newPin := mkEdGraphPinFromFlowPin EGPDDirection.input flowPin
    { gn with pins := gn.pins ++ [newPin], inputPins := gn.inputPins ++ [newPin] }

/-- `UFlowGraphNode::CreateOutputPin` (append case), mirror of `CreateInputPin`. -/
def UFlowGraphNode.CreateOutputPin (gn : GraphNodeState) (flowPin : FFlowPin) : GraphNodeState :=
  if flowPin.pinName = none then gn
  else
    let newPin := mkEdGraphPinFromFlowPin EGPDDirection.output flowPin
    { gn with pins := gn.pins ++ [newPin], outputPins := gn.outputPins ++ [newPin] }

/-- `UFlowGraphNode::AllocateDefaultPins`: when the instance is a `UFlowNode`, create
one graph pin per stored input descriptor, then per output descriptor, in order. -/
def UFlowGraphNode.AllocateDefaultPins (gn : GraphNodeState) : GraphNodeState :=
  match gn.nodeInstance with
  | some (FlowNodeInstance.flowNode flowNode) =>
    let gn1 := flowNode.inputPins.foldl UFlowGraphNode.CreateInputPin gn
    flowNode.outputPins.foldl UFlowGraphNode.CreateOutputPin gn1
  | _ => gn

/-- Modelled from the spec: `UEdGraphPin::MovePersistentDataFromOldPin` is engine code
not under src/. Per spec 4.2 the old pin's persistent display/runtime state and its
connections migrate onto the matching new pin (value migration), leaving the old pin
without connections. Returns (new pin after move, old pin after move). -/
def MovePersistentDataFromOldPin (newPin oldPin : UEdGraphPin) : UEdGraphPin × UEdGraphPin :=
  ({ newPin with linkedTo := oldPin.linkedTo, persistentData := oldPin.persistentData },
   { oldPin with linkedTo := [] })

/-- `UFlowGraphNode::ReconstructSinglePin`: copy over modified persistent data. -/
def UFlowGraphNode.ReconstructSinglePin (newPin oldPin : UEdGraphPin) : UEdGraphPin × UEdGraphPin :=
  MovePersistentDataFromOldPin newPin oldPin

/-- `UEdGraphPin::BreakAllPinLinks` (engine): sever every connection of the pin.
Remote endpoints are external to the single-node model. -/
def UEdGraphPin.BreakAllPinLinks (p : UEdGraphPin) : UEdGraphPin :=
  { p with linkedTo := [] }

/-- The local state of `RewireOldPinsToNewPins`: the (new) master pin array, the
`NewPinMatched` flags, the old-pin array being consumed, the collected orphaned old
pins, and the old-to-new `MatchedPins` record. -/
structure RewireState : Type where
  pins : List UEdGraphPin
  newPinMatched : List Bool
  oldPins : List UEdGraphPin
  orphanedOldPins : List UEdGraphPin
  matchedPins : List (UEdGraphPin × UEdGraphPin)
deriving DecidableEq

/-- The inner scan of `RewireOldPinsToNewPins`: starting at `idx` and wrapping modulo
the pin count, visit `fuel` slots looking for a not-yet-claimed new pin with the given
name. -/
def findMatchIndexAux (pins : List UEdGraphPin) (matched : List Bool)
    (name : Option String) : Nat → Nat → Option Nat
  | _, 0 => none
  | idx, fuel + 1 =>
    if matched[idx]? = some false ∧ (pins[idx]?).map UEdGraphPin.pinName = some name
    then some idx
    else findMatchIndexAux pins matched name ((idx + 1) % pins.length) fuel

/-- The orphan-retention condition of `RewireOldPinsToNewPins` (minus the `!bMatched`
conjunct, which is the surrounding control flow): orphan pins globally enabled, node
has not disabled orphan saving, save mode is `SaveAll`, the pin is not hidden, the pin
wants saving when orphaned, and the pin has at least one live connection. -/
def orphanPinRetentionCondition (env : FlowEditorEnv) (gn : GraphNodeState)
    (oldPin : UEdGraphPin) : Bool :=
  env.areOrphanPinsEnabled && !gn.bDisableOrphanPinSaving &&
    decide (gn.orphanedPinSaveMode = ESaveOrphanPinMode.SaveAll) &&
    !oldPin.bHidden && oldPin.bSavePinIfOrphaned && decide (0 < oldPin.linkedTo.length)

/-- One iteration of the backward old-pin loop in `RewireOldPinsToNewPins`: try to
match the old pin at `oldPinIndex` by name against an unclaimed new pin (starting at
`oldPinIndex % numNewPins`); on match run `ReconstructSinglePin` and record the pair;
otherwise, when the orphan-retention condition holds, flag the old pin orphaned and
not-connectable, collect it, and remove it from the old-pin array. -/
def rewireStep (env : FlowEditorEnv) (gn : GraphNodeState) (numNewPins : Nat)
    (st : RewireState) (oldPinIndex : Nat) : RewireState :=
  match st.oldPins[oldPinIndex]? with
  | none => st
  | some oldPin =>
    let startIdx := if numNewPins ≠ 0 then oldPinIndex % numNewPins else 0
    let found := findMatchIndexAux st.pins st.newPinMatched oldPin.pinName startIdx numNewPins
    let st1 :=
      match found with
      | some newPinIndex =>
        match st.pins[newPinIndex]? with
        | some newPin =>
          let moved := UFlowGraphNode.ReconstructSinglePin newPin oldPin
          { st with
            pins := st.pins.set newPinIndex moved.1
            oldPins := st.oldPins.set oldPinIndex moved.2
            newPinMatched := st.newPinMatched.set newPinIndex true
            matchedPins := st.matchedPins ++ [(oldPin, moved.1)] }
        | none => st
      | none => st
    if orphanPinRetentionCondition env gn oldPin && !found.isSome then
      { st1 with
        orphanedOldPins := st1.orphanedOldPins ++
          [{ oldPin with bOrphanedPin := true, bNotConnectable := true }]
        oldPins := st1.oldPins.eraseIdx oldPinIndex }
    else st1

/-- The backward old-pin loop: indices `fuel - 1, …, 0`. -/
def rewireLoop (env : FlowEditorEnv) (gn : GraphNodeState) (numNewPins : Nat) :
    RewireState → Nat → RewireState
  | st, 0 => st
  | st, i + 1 => rewireLoop env gn numNewPins (rewireStep env gn numNewPins st i) i

/-- The orphan-append step at the end of `RewireOldPinsToNewPins`: a collected orphan
with no parent (split-origin) pin is appended to the master array and its direction
view; a parented orphan is skipped. -/
def appendOrphanedPin (gn : GraphNodeState) (orphanedPin : UEdGraphPin) : GraphNodeState :=
  if orphanedPin.parentPin = none then
    { gn with
      pins := gn.pins ++ [orphanedPin]
      inputPins :=
        if orphanedPin.direction = EGPDDirection.input then gn.inputPins ++ [orphanedPin]
        else gn.inputPins
      outputPins :=
        if orphanedPin.direction = EGPDDirection.output then gn.outputPins ++ [orphanedPin]
        else gn.outputPins }
  else gn

/-- `UFlowGraphNode::RewireOldPinsToNewPins`: run the backward matching/orphan loop
over the old pins, then append the collected orphans (in reverse collection order,
i.e. original old-pin order) after the freshly allocated pins. Returns the updated
node state together with the final loop state (whose `oldPins` are the pins the caller
destroys). -/
def UFlowGraphNode.RewireOldPinsToNewPins (env : FlowEditorEnv) (gn : GraphNodeState)
    (inOldPins : List UEdGraphPin) : GraphNodeState × RewireState :=
  let numNewPins := gn.pins.length
  let st0 : RewireState :=
    { pins := gn.pins
      newPinMatched := List.replicate numNewPins false
      oldPins := inOldPins
      orphanedOldPins := []
      matchedPins := [] }
  let st := rewireLoop env gn numNewPins st0 inOldPins.length
  let gn1 := { gn with pins := st.pins }
  let gn2 := st.orphanedOldPins.reverse.foldl appendOrphanedPin gn1
  (gn2, st)

/-- `UFlowGraphNode::TryUpdateAutoDataPins`. The call into
`UFlowAsset::TryUpdateManagedFlowPinsForNode` is modelled from the spec: that function
is asset-side code not under src/; per spec 6 it recomputes the node's data-driven
managed/auto pins from external data and reports whether anything changed. -/
def UFlowGraphNode.TryUpdateAutoDataPins (env : FlowEditorEnv) (gn : GraphNodeState) :
    Bool × GraphNodeState :=
  match gn.nodeInstance with
  | some (FlowNodeInstance.flowNode flowNodeInstance) =>
    if env.hasFlowAsset then
      let updated := env.updateManagedPins flowNodeInstance
      if updated ≠ flowNodeInstance then
        (true, { gn with nodeInstance := some (FlowNodeInstance.flowNode updated) })
      else (false, gn)
    else (false, gn)
  | _ => (false, gn)

/-- `UFlowGraphNode::SupportsContextPins`: `NodeInstance && NodeInstance->SupportsContextPins()`. -/
def UFlowGraphNode.SupportsContextPins (gn : GraphNodeState) : Bool :=
  match gn.nodeInstance with
  | some (FlowNodeInstance.flowNode n) => n.supportsContextPins
  | _ => false

/-- `UFlowGraphNode::TryUpdateNodePins`: recompute the required descriptor sequences
(CDO pins plus context pins, cleaned), compare with the instance's stored (cleaned)
sequences, and replace a mismatched stored sequence wholesale with the cleaned
required one. Returns whether anything was replaced; returns true immediately when the
instance is not a valid `UFlowNode`. -/
def UFlowGraphNode.TryUpdateNodePins (env : FlowEditorEnv) (gn : GraphNodeState) :
    Bool × GraphNodeState :=
  match gn.nodeInstance with
  | some (FlowNodeInstance.flowNode flowNodeInstance) =>
    let bIsLoad := gn.hasOwnerGraph && env.isLoadingGraph
    let bIsAllowedToRefreshPins := !bIsLoad || flowNodeInstance.canRefreshContextPinsOnLoad
    let bShouldConsiderRefreshingContextPins :=
      bIsAllowedToRefreshPins && UFlowGraphNode.SupportsContextPins gn
    let bShouldRefreshContextPins :=
      bShouldConsiderRefreshingContextPins || gn.bNeedsFullReconstruction
    if !bShouldRefreshContextPins then (false, gn)
    else
      let requiredNodeInputPins := CleanInvalidPinsFlow (env.cdoInputPins ++ env.contextInputs)
      let requiredNodeOutputPins := CleanInvalidPinsFlow (env.cdoOutputPins ++ env.contextOutputs)
      let existingNodeInputPins := CleanInvalidPinsFlow flowNodeInstance.inputPins
      let existingNodeOutputPins := CleanInvalidPinsFlow flowNodeInstance.outputPins
      let inputsMismatch := !CheckPinsMatch requiredNodeInputPins existingNodeInputPins
      let n1 :=
        if inputsMismatch then { flowNodeInstance with inputPins := requiredNodeInputPins }
        else flowNodeInstance
      let outputsMismatch := !CheckPinsMatch requiredNodeOutputPins existingNodeOutputPins
      let n2 := if outputsMismatch then { n1 with outputPins := requiredNodeOutputPins } else n1
      (inputsMismatch || outputsMismatch,
       { gn with nodeInstance := some (FlowNodeInstance.flowNode n2) })
  | _ => (true, gn)

/-- `UFlowGraphNode::CheckGraphPinsMatchNodePins`: compare the node's (cleaned) stored
descriptors, inputs then outputs, against the graph node's (orphan-stripped) live
pins. Returns false when the instance is not a valid `UFlowNode`. -/
def UFlowGraphNode.CheckGraphPinsMatchNodePins (gn : GraphNodeState) : Bool :=
  match gn.nodeInstance with
  | some (FlowNodeInstance.flowNode flowNodeInstance) =>
    let existingNodePins :=
      CleanInvalidPinsFlow (flowNodeInstance.inputPins ++ flowNodeInstance.outputPins)
    let allGraphNodePins := CleanInvalidPinsGraph gn.pins
    CheckPinsMatchGraph allGraphNodePins existingNodePins
  | _ => false

/-- `UFlowGraphNode::CanReconstructNode`: the guard of `ReconstructNode`. -/
def UFlowGraphNode.CanReconstructNode (env : FlowEditorEnv) (gn : GraphNodeState) : Bool :=
  if env.gIsTransacting || gn.bIsReconstructingNode || gn.bIsDestroyingNode then false
  else if gn.nodeInstance.isNone then false
  else if !gn.hasOwnerGraph then false
  else if env.isSavingGraph then false
  else if env.isLockedGraph then false
  else true

/-- The observable outcome of one `ReconstructNode` call: the node state afterwards,
how many times `OnReconstructNodeCompleted` was fired, and the old pins destroyed at
the end of the rebuild (each with its links broken first). -/
structure ReconstructResult : Type where
  state : GraphNodeState
  completedEvents : Nat
  destroyedPins : List UEdGraphPin
deriving DecidableEq

/-- `UFlowGraphNode::ReconstructNode`: guard; set the re-entrancy flag; refresh auto
data pins, then node pins, then check graph/node pin parity; if anything changed (or a
full reconstruction is pending) snapshot the pins, reallocate from the instance's
descriptors, rewire old pins onto new pins, destroy the leftover old pins
(breaking their links first) and clear the pending-full flag; finally fire
`OnReconstructNodeCompleted` and clear the re-entrancy flag. -/
def UFlowGraphNode.ReconstructNode (env : FlowEditorEnv) (gn : GraphNodeState) :
    ReconstructResult :=
  if !UFlowGraphNode.CanReconstructNode env gn then
    { state := gn, completedEvents := 0, destroyedPins := [] }
  else
    let gn1 := { gn with bIsReconstructingNode := true }
    let auto := UFlowGraphNode.TryUpdateAutoDataPins env gn1
    let gn2 := auto.2
    let nodeUpd := UFlowGraphNode.TryUpdateNodePins env gn2
    let gn3 := nodeUpd.2
    let bAreGraphPinsMismatched := !UFlowGraphNode.CheckGraphPinsMatchNodePins gn3
    let bGraphNodeRequiresReconstruction :=
      gn3.bNeedsFullReconstruction || auto.1 || nodeUpd.1 || bAreGraphPinsMismatched
    if bGraphNodeRequiresReconstruction then
      let oldPins := gn3.pins
      let gn4 := { gn3 with pins := [], inputPins := [], outputPins := [] }
      let gn5 := UFlowGraphNode.AllocateDefaultPins gn4
      let rew := UFlowGraphNode.RewireOldPinsToNewPins env gn5 oldPins
      { state :=
          { rew.1 with bNeedsFullReconstruction := false, bIsReconstructingNode := false }
        completedEvents := 1
        destroyedPins := rew.2.oldPins.map UEdGraphPin.BreakAllPinLinks }
    else
      { state := { gn3 with bIsReconstructingNode := false }
        completedEvents := 1
        destroyedPins := [] }

/-- `UFlowGraphNode::CanUserAddInput`: the instance is a `UFlowNode` that allows
user-added inputs and the input view holds fewer than 256 pins. -/
def UFlowGraphNode.CanUserAddInput (gn : GraphNodeState) : Bool :=
  match gn.nodeInstance with
  | some (FlowNodeInstance.flowNode flowNode) =>
    flowNode.canUserAddInput && decide (gn.inputPins.length < 256)
  | _ => false

/-- `UFlowGraphNode::CanUserAddOutput`: mirror of `CanUserAddInput` for outputs. -/
def UFlowGraphNode.CanUserAddOutput (gn : GraphNodeState) : Bool :=
  match gn.nodeInstance with
  | some (FlowNodeInstance.flowNode flowNode) =>
    flowNode.canUserAddOutput && decide (gn.outputPins.length < 256)
  | _ => false

/-- `UFlowGraphNode::SetParentNodeForSubNode`: a non-null parent latches
`bIsSubNode`; the parent reference itself is assigned unconditionally. -/
def UFlowGraphNode.SetParentNodeForSubNode (gn : GraphNodeState)
    (inParentNode : Option Nat) : GraphNodeState :=
  if inParentNode.isSome then
    { gn with bIsSubNode := true, parentNode := inParentNode }
  else
    { gn with parentNode := inParentNode }

/-- `UFlowGraphNode::IsSubNode`. -/
def UFlowGraphNode.IsSubNode (gn : GraphNodeState) : Bool :=
  gn.bIsSubNode || gn.parentNode.isSome

/-- `EFlowAddOnAcceptResult` (runtime enum consumed by `CanAcceptSubNodeAsChild`). -/
inductive EFlowAddOnAcceptResult : Type
  | Undetermined
  | Reject
  | TentativeAccept
deriving DecidableEq

/-- The multi-node context needed by the sub-node hierarchy operations: graph nodes
are identified by ids; `parentOf` is the `ParentNode` reference, `nodeInstanceOf` the
`NodeInstance` reference, and `checkAcceptFlowNodeAddOnChild` the Node Instance's
accept-policy callback (this node, candidate add-on, other add-ons in the batch). -/
structure SubNodeGraphCtx : Type where
  parentOf : Nat → Option Nat
  nodeInstanceOf : Nat → Option FlowNodeInstance
  classNameOf : Nat → String
  checkAcceptFlowNodeAddOnChild : Nat → Option Nat → List Nat → EFlowAddOnAcceptResult

/-- The parent-chain walk of `UFlowGraphNode::IsAncestorNode`. The C++ while-loop
terminates because parent chains are acyclic; the embedding carries an explicit
`fuel` bound on the number of hops. -/
def isAncestorWalk (ctx : SubNodeGraphCtx) (other : Nat) : Option Nat → Nat → Bool
  | none, _ => false
  | some _, 0 => false
  | some cur, fuel + 1 =>
    if cur = other then true else isAncestorWalk ctx other (ctx.parentOf cur) fuel

/-- `UFlowGraphNode::IsAncestorNode`: walk this node's parent chain looking for
`otherNode`. -/
def UFlowGraphNode.IsAncestorNode (ctx : SubNodeGraphCtx) (fuel : Nat)
    (thisNode otherNode : Nat) : Bool :=
  isAncestorWalk ctx otherNode (ctx.parentOf thisNode) fuel

/-- `Cast<UFlowNodeAddOn>(NodeInstance)`: succeeds exactly on add-on instances. -/
def castToFlowNodeAddOn : Option FlowNodeInstance → Option Nat
  | some (FlowNodeInstance.addOn a) => some a
  | _ => none

/-- `UFlowGraphNode::CanAcceptSubNodeAsChild`: reject a candidate with no runtime
instance; reject (cycle) a candidate that is an ancestor of this node; otherwise build
the batch of other add-ons being pasted and delegate to the accept policy, treating
only `TentativeAccept` as acceptance. Returns (accepted, reason string). -/
def UFlowGraphNode.CanAcceptSubNodeAsChild (ctx : SubNodeGraphCtx) (fuel : Nat)
    (thisNode otherNode : Nat) (allRootSubNodesToPaste : List Nat) : Bool × String :=
  match ctx.nodeInstanceOf otherNode with
  | none => (false, "Editor node is missing a runtime AddOn instance")
  | some _ =>
    if UFlowGraphNode.IsAncestorNode ctx fuel thisNode otherNode then
      (false, "Cannot be a AddOn of one of our own AddOns")
    else
      let addOnToConsider := castToFlowNodeAddOn (ctx.nodeInstanceOf otherNode)
      let otherAddOnsToPaste :=
        allRootSubNodesToPaste.filterMap (fun nodeToPaste =>
          match castToFlowNodeAddOn (ctx.nodeInstanceOf nodeToPaste) with
          | some addOnToPaste =>
            if some addOnToPaste ≠ addOnToConsider then some addOnToPaste else none
          | none => none)
      match ctx.checkAcceptFlowNodeAddOnChild thisNode addOnToConsider otherAddOnsToPaste with
      | EFlowAddOnAcceptResult.TentativeAccept => (true, "")
      | _ =>
        (false,
         ctx.classNameOf thisNode ++ " cannot accept AddOn type " ++ ctx.classNameOf otherNode)

/-- The kind of a runtime instance attached to an editor sub-node. -/
inductive InstanceKind : Type
  | flowNodeKind
  | addOnKind
deriving DecidableEq

/-- A runtime node-instance as seen by the mirror rebuild: its identity, whether it is
a `UFlowNodeAddOn`, and its flat `AddOns` child list
(`GetFlowNodeAddOnChildrenByEditor`). -/
structure MirrorInstance : Type where
  instId : Nat
  kind : InstanceKind
  addOns : List Nat
deriving DecidableEq

/-- The editor-side sub-node tree for the mirror rebuild: each node carries its
`IsValid` state, its optional runtime instance, and its `SubNodes` children. -/
inductive EditorSubNodeTree : Type
  | node (valid : Bool) (inst : Option MirrorInstance) (subNodes : List EditorSubNodeTree)

/-- `IsValid(SubNode)` on the editor side. -/
def EditorSubNodeTree.isValidNode : EditorSubNodeTree → Bool
  | .node v _ _ => v

/-- `Cast<UFlowNodeAddOn>(SubNode->NodeInstance)` combined with `IsValid` on the
result: the sub-node's runtime add-on instance, when present. -/
def EditorSubNodeTree.addOnNodeInstance : EditorSubNodeTree → Option Nat
  | .node _ (some i) _ => if i.kind = InstanceKind.addOnKind then some i.instId else none
  | .node _ none _ => none

/-- `TArray::AddUnique`: append unless already present. -/
def TArrayAddUnique (l : List Nat) (x : Nat) : List Nat :=
  if x ∈ l then l else l ++ [x]

/-- The mirroring loop of `RebuildRuntimeAddOnsFromEditorSubNodes` (run when this
node's `NodeInstance` is valid): reset the runtime add-on list, then for each sub-node
in order add its valid add-on instance with `AddUnique`; an invalid sub-node or one
without an add-on instance is logged and skipped. Returns the new flat add-on list and
the number of logged diagnostics. -/
def mirrorStep (acc : List Nat × Nat) (subNode : EditorSubNodeTree) : List Nat × Nat :=
  if !subNode.isValidNode then (acc.1, acc.2 + 1)
  else
    match subNode.addOnNodeInstance with
    | some addOnInst => (TArrayAddUnique acc.1 addOnInst, acc.2)
    | none => (acc.1, acc.2 + 1)

def mirrorSubNodesToAddOns (subNodes : List EditorSubNodeTree) : List Nat × Nat :=
  subNodes.foldl mirrorStep ([], 0)

/-- `UFlowGraphNode::RebuildRuntimeAddOnsFromEditorSubNodes`: when this node's
instance is valid, replace its flat add-on list with the mirror of the sub-node
sequence; then recurse into every valid sub-node. The trailing `ReconstructNode` call
of the C++ (for pin-bearing instances) only rebuilds that node's own pin set and never
writes any add-on list, so it is outside this tree-level model. -/
def RebuildRuntimeAddOnsFromEditorSubNodes : EditorSubNodeTree → EditorSubNodeTree
  | .node valid inst subNodes =>
    let inst1 :=
      match inst with
      | some i => some { i with addOns := (mirrorSubNodesToAddOns subNodes).1 }
      | none => none
    let subNodes1 := subNodes.attach.map (fun s =>
      if s.1.isValidNode then RebuildRuntimeAddOnsFromEditorSubNodes s.1 else s.1)
    .node valid inst1 subNodes1
termination_by t => sizeOf t
decreasing_by
  simp_wf
  have hs := List.sizeOf_lt_of_mem s.2
  omega

/-! ### Generic list helpers -/

lemma list_set_same {α : Type} {l : List α} {i : Nat} {a : α} (h : l[i]? = some a) :
    l.set i a = l := by
  apply List.ext_getElem?
  intro n
  rw [List.getElem?_set]
  rcases List.getElem?_eq_some.mp h with ⟨hlt, hget⟩
  by_cases hin : i = n
  · subst hin
    simp [hlt, ← hget, h]
  · simp [hin]

lemma list_map_set_same {α β : Type} (f : α → β) {l : List α} {i : Nat} {a b : α}
    (h : l[i]? = some a) (hfb : f b = f a) : (l.set i b).map f = l.map f := by
  have h1 : (l.map f)[i]? = some (f a) := by
    rw [List.getElem?_map, h]
    rfl
  calc (l.set i b).map f = (l.map f).set i (f b) := by rw [List.map_set]
    _ = (l.map f).set i (f a) := by rw [hfb]
    _ = l.map f := list_set_same h1

lemma getElem?_dropLast {α : Type} (l : List α) (n : Nat) :
    l.dropLast[n]? = if n < l.length - 1 then l[n]? else none := by
  rw [List.dropLast_eq_take, List.getElem?_take]

/-! ### Properties of the RemoveAtSwap-based CleanInvalidPins sweep -/

lemma cleanBySwapAux_all_good {α : Type} (bad : α → Bool) :
    ∀ (f : Nat) (a : List α), (∀ x ∈ a, bad x = false) → cleanBySwapAux bad a f = a := by
  intro f
  induction f with
  | zero => intro a _; rfl
  | succ i ih =>
    intro a h
    unfold cleanBySwapAux
    cases hx : a[i]? with
    | none => exact ih a h
    | some x =>
      have hmem : x ∈ a := List.getElem?_mem hx
      show cleanBySwapAux bad (if bad x = true then removeAtSwap a i else a) i = a
      rw [h x hmem]
      simp only [Bool.false_eq_true, if_false]
      exact ih a h

/-- Cleaning a list with no bad elements leaves it untouched. -/
lemma cleanBySwap_all_good {α : Type} (bad : α → Bool) (a : List α)
    (h : ∀ x ∈ a, bad x = false) : cleanBySwap bad a = a :=
  cleanBySwapAux_all_good bad a.length a h

lemma cleanBySwapAux_perm {α : Type} (bad : α → Bool) :
    ∀ (f : Nat) (a : List α),
      (∀ j, f ≤ j → ∀ x, a[j]? = some x → bad x = false) →
      (cleanBySwapAux bad a f).Perm ((a.take f).filter (fun x => !bad x) ++ a.drop f) := by
  intro f
  induction f with
  | zero =>
    intro a _
    unfold cleanBySwapAux
    simp
  | succ i ih =>
    intro a h
    unfold cleanBySwapAux
    cases hx : a[i]? with
    | none =>
      have hlen : a.length ≤ i := by
        by_contra hlt
        push_neg at hlt
        rw [(List.getElem?_eq_some (a := a[i])).mpr ⟨hlt, rfl⟩] at hx
        exact Option.noConfusion hx
      have h1 : ∀ j, i ≤ j → ∀ x, a[j]? = some x → bad x = false := by
        intro j hj x hxx
        have : a[j]? = none := List.getElem?_eq_none (le_trans hlen hj)
        rw [this] at hxx
        exact Option.noConfusion hxx
      have hres := ih a h1
      rw [List.take_of_length_le hlen, List.drop_eq_nil_of_le hlen] at hres
      rw [List.take_of_length_le (le_trans hlen (Nat.le_succ i)),
        List.drop_eq_nil_of_le (le_trans hlen (Nat.le_succ i))]
      exact hres
    | some x =>
      rcases List.getElem?_eq_some.mp hx with ⟨hlt, hget⟩
      have htake : a.take (i + 1) = a.take i ++ [x] := by
        rw [List.take_succ, hx]
        rfl
      cases hbad : bad x with
      | false =>
        show (cleanBySwapAux bad (if bad x = true then removeAtSwap a i else a) i).Perm _
        rw [hbad]
        simp only [Bool.false_eq_true, if_false]
        have h1 : ∀ j, i ≤ j → ∀ y, a[j]? = some y → bad y = false := by
          intro j hj y hy
          rcases Nat.lt_or_ge j (i + 1) with hc | hc
          · have hji : j = i := by omega
            subst hji
            rw [hy] at hx
            cases hx
            exact hbad
          · exact h j hc y hy
        have hperm := ih a h1
        have hdrop : a.drop i = x :: a.drop (i + 1) := by
          rw [List.drop_eq_getElem_cons hlt, hget]
        rw [hdrop] at hperm
        rw [htake, List.filter_append]
        have hfx : List.filter (fun y => !bad y) [x] = [x] := by
          simp [List.filter_cons, hbad]
        rw [hfx, List.append_assoc, List.singleton_append]
        exact hperm
      | true =>
        show (cleanBySwapAux bad (if bad x = true then removeAtSwap a i else a) i).Perm _
        rw [hbad]
        simp only [if_true]
        have hne : a ≠ [] := by
          intro hnil
          rw [hnil] at hlt
          simp at hlt
        have hlastval : a.getLast? = some (a.getLast hne) := List.getLast?_eq_getLast a hne
        have hlastget : a.getLast hne = a[a.length - 1] := List.getLast_eq_getElem a hne
        have hremove : removeAtSwap a i = (a.set i (a.getLast hne)).dropLast := by
          unfold removeAtSwap
          rw [hlastval]
        -- the filtered take is unchanged by this step: x is bad and gets dropped
        have hfiltake : (a.take (i + 1)).filter (fun y => !bad y) =
            (a.take i).filter (fun y => !bad y) := by
          rw [htake, List.filter_append]
          simp [List.filter_cons, hbad]
        rw [hfiltake]
        rcases Nat.lt_or_ge i (a.length - 1) with hcase | hcase
        · -- i is not the last slot: the last element (still unvisited region) moves into slot i
          set last := a.getLast hne with hlastdef
          have hlastgood : bad last = false := by
            apply h (a.length - 1) (by omega) last
            rw [hlastget] at hlastval ⊢
            exact (List.getElem?_eq_some (a := a[a.length - 1])).mpr ⟨by omega, rfl⟩
          have hsetlen : (a.set i last).length = a.length := by simp
          have hrem : removeAtSwap a i = (a.set i last).dropLast := hremove
          have hremlen : (removeAtSwap a i).length = a.length - 1 := by
            rw [hrem, List.length_dropLast, hsetlen]
          have hremget : ∀ n, (removeAtSwap a i)[n]? =
              if n < a.length - 1 then (a.set i last)[n]? else none := by
            intro n
            rw [hrem, getElem?_dropLast, hsetlen]
          have h1 : ∀ j, i ≤ j → ∀ y, (removeAtSwap a i)[j]? = some y → bad y = false := by
            intro j hj y hy
            rw [hremget j] at hy
            by_cases hjlt : j < a.length - 1
            · rw [if_pos hjlt, List.getElem?_set] at hy
              by_cases hij : i = j
              · rw [if_pos hij, if_pos (by omega)] at hy
                cases hy
                exact hlastgood
              · rw [if_neg hij] at hy
                exact h j (by omega) y hy
            · rw [if_neg hjlt] at hy
              exact Option.noConfusion hy
          have hperm := ih (removeAtSwap a i) h1
          -- take i of the swapped list equals take i of a
          have htakeeq : (removeAtSwap a i).take i = a.take i := by
            apply List.ext_getElem?
            intro n
            rw [List.getElem?_take, List.getElem?_take]
            by_cases hn : n < i
            · rw [if_pos hn, if_pos hn, hremget n, if_pos (by omega), List.getElem?_set,
                if_neg (by omega)]
            · rw [if_neg hn, if_neg hn]
          -- drop i of the swapped list is `last` followed by dropLast of a.drop (i+1)
          have hdropchar : (removeAtSwap a i).drop i = last :: (a.drop (i + 1)).dropLast := by
            apply List.ext_getElem?
            intro n
            rw [List.getElem?_drop]
            cases n with
            | zero =>
              simp only [Nat.add_zero]
              rw [hremget, if_pos (by omega), List.getElem?_set, if_pos rfl, if_pos (by omega)]
              simp
            | succ m =>
              rw [hremget, List.getElem?_cons_succ, getElem?_dropLast, List.length_drop]
              by_cases hm : i + (m + 1) < a.length - 1
              · rw [if_pos hm, List.getElem?_set, if_neg (by omega), if_pos (by omega),
                  List.getElem?_drop]
                congr 1
                omega
              · rw [if_neg hm, if_neg (by omega)]
          -- a.drop (i+1) is a permutation of last :: its dropLast
          have hdndrop : a.drop (i + 1) ≠ [] := by
            intro hnil
            have := congrArg List.length hnil
            rw [List.length_drop] at this
            simp at this
            omega
          have hlastdrop : (a.drop (i + 1)).getLast hdndrop = last := by
            rw [List.getLast_drop hdndrop, hlastdef]
          have hsplit : (a.drop (i + 1)).dropLast ++ [last] = a.drop (i + 1) := by
            conv_rhs => rw [← List.dropLast_append_getLast hdndrop]
            rw [hlastdrop]
          have hpermdrop : ((removeAtSwap a i).drop i).Perm (a.drop (i + 1)) := by
            rw [hdropchar]
            conv_rhs => rw [← hsplit]
            exact (List.perm_append_singleton last (a.drop (i + 1)).dropLast).symm
          rw [htakeeq] at hperm
          exact hperm.trans ((List.Perm.refl _).append hpermdrop)
        · -- i is the last slot: RemoveAtSwap just drops it
          have hieq : i = a.length - 1 := by omega
          have hxlast : a.getLast hne = x := by
            rw [hlastget, ← hget]
            congr 1
            omega
          have hrem2 : removeAtSwap a i = a.dropLast := by
            rw [hremove, hxlast]
            have : a.set i x = a := list_set_same (by rw [hx])
            rw [this]
          have hremlen : (removeAtSwap a i).length = a.length - 1 := by
            rw [hrem2, List.length_dropLast]
          have h1 : ∀ j, i ≤ j → ∀ y, (removeAtSwap a i)[j]? = some y → bad y = false := by
            intro j hj y hy
            have : (removeAtSwap a i)[j]? = none := by
              apply List.getElem?_eq_none
              omega
            rw [this] at hy
            exact Option.noConfusion hy
          have hperm := ih (removeAtSwap a i) h1
          have htakeall : (removeAtSwap a i).take i = removeAtSwap a i :=
            List.take_of_length_le (by omega)
          have hdropnil : (removeAtSwap a i).drop i = [] :=
            List.drop_eq_nil_of_le (by omega)
          have htakei : removeAtSwap a i = a.take i := by
            rw [hrem2, List.dropLast_eq_take, hieq]
          rw [htakeall, hdropnil, List.append_nil] at hperm
          have hdropnil2 : a.drop (i + 1) = [] := List.drop_eq_nil_of_le (by omega)
          rw [hdropnil2, List.append_nil, ← htakei]
          exact hperm

/-- The CleanInvalidPins sweep permutes to a plain filter of the good elements. -/
lemma cleanBySwap_perm {α : Type} (bad : α → Bool) (a : List α) :
    (cleanBySwap bad a).Perm (a.filter (fun x => !bad x)) := by
  have h := cleanBySwapAux_perm bad a.length a (by
    intro j hj x hx
    rw [List.getElem?_eq_none hj] at hx
    exact Option.noConfusion hx)
  rw [List.take_length, List.drop_length, List.append_nil] at h
  exact h

/-! ### Characterizations of the pin matching functions -/

lemma checkPinsMatch_eq_true_iff (leftPins rightPins : List FFlowPin) :
    CheckPinsMatch leftPins rightPins = true ↔
      (leftPins.length = rightPins.length ∧
        ∀ left ∈ leftPins, ∃ right ∈ rightPins,
          left.pinName = right.pinName ∧ left.GetPinType = right.GetPinType) := by
  unfold CheckPinsMatch
  rw [Bool.and_eq_true, decide_eq_true_iff, List.all_eq_true]
  constructor
  · rintro ⟨hlen, hall⟩
    refine ⟨hlen, ?_⟩
    intro left hl
    have := hall left hl
    rw [List.any_eq_true] at this
    rcases this with ⟨right, hr, hmatch⟩
    rw [Bool.and_eq_true, decide_eq_true_iff, decide_eq_true_iff] at hmatch
    exact ⟨right, hr, hmatch⟩
  · rintro ⟨hlen, hall⟩
    refine ⟨hlen, ?_⟩
    intro left hl
    rw [List.any_eq_true]
    rcases hall left hl with ⟨right, hr, h1, h2⟩
    exact ⟨right, hr, by rw [Bool.and_eq_true, decide_eq_true_iff, decide_eq_true_iff]; exact ⟨h1, h2⟩⟩

lemma checkPinsMatchGraph_eq_true_iff (graphPins : List UEdGraphPin) (nodePins : List FFlowPin) :
    CheckPinsMatchGraph graphPins nodePins = true ↔
      (graphPins.length = nodePins.length ∧
        ∀ np ∈ nodePins, ∃ gp ∈ graphPins, gp.pinName = np.pinName) := by
  unfold CheckPinsMatchGraph
  rw [Bool.and_eq_true, decide_eq_true_iff, List.all_eq_true]
  constructor
  · rintro ⟨hlen, hall⟩
    refine ⟨hlen, ?_⟩
    intro np hn
    have := hall np hn
    rw [List.any_eq_true] at this
    rcases this with ⟨gp, hg, hmatch⟩
    rw [decide_eq_true_iff] at hmatch
    exact ⟨gp, hg, hmatch⟩
  · rintro ⟨hlen, hall⟩
    refine ⟨hlen, ?_⟩
    intro np hn
    rw [List.any_eq_true]
    rcases hall np hn with ⟨gp, hg, h1⟩
    exact ⟨gp, hg, by rw [decide_eq_true_iff]; exact h1⟩

lemma checkPinsMatch_refl (a : List FFlowPin) : CheckPinsMatch a a = true := by
  rw [checkPinsMatch_eq_true_iff]
  exact ⟨rfl, fun left hl => ⟨left, hl, rfl, rfl⟩⟩

lemma checkPinsMatchGraph_perm_congr {g g' : List UEdGraphPin} {n n' : List FFlowPin}
    (hg : g.Perm g') (hn : n.Perm n') :
    CheckPinsMatchGraph g n = CheckPinsMatchGraph g' n' := by
  have h1 := checkPinsMatchGraph_eq_true_iff g n
  have h2 := checkPinsMatchGraph_eq_true_iff g' n'
  have hiff : (CheckPinsMatchGraph g n = true) ↔ (CheckPinsMatchGraph g' n' = true) := by
    rw [h1, h2, hg.length_eq, hn.length_eq]
    constructor
    · rintro ⟨hlen, hall⟩
      refine ⟨hlen, ?_⟩
      intro np hnp
      rcases hall np (hn.mem_iff.mpr hnp) with ⟨gp, hgp, he⟩
      exact ⟨gp, hg.mem_iff.mp hgp, he⟩
    · rintro ⟨hlen, hall⟩
      refine ⟨hlen, ?_⟩
      intro np hnp
      rcases hall np (hn.mem_iff.mp hnp) with ⟨gp, hgp, he⟩
      exact ⟨gp, hg.mem_iff.mpr hgp, he⟩
  cases hb : CheckPinsMatchGraph g n with
  | true => exact (hiff.mp hb).symm
  | false =>
    cases hb2 : CheckPinsMatchGraph g' n' with
    | true =>
      rw [hiff.mpr hb2] at hb
      exact Bool.noConfusion hb
    | false => rfl

/-! ### C4: guarded no-op -/

lemma canReconstructNode_eq_true_iff (env : FlowEditorEnv) (gn : GraphNodeState) :
    UFlowGraphNode.CanReconstructNode env gn = true ↔
      (env.gIsTransacting = false ∧ gn.bIsReconstructingNode = false ∧
        gn.bIsDestroyingNode = false ∧ gn.nodeInstance ≠ none ∧
        gn.hasOwnerGraph = true ∧ env.isSavingGraph = false ∧ env.isLockedGraph = false) := by
  unfold UFlowGraphNode.CanReconstructNode
  cases h1 : env.gIsTransacting <;> cases h2 : gn.bIsReconstructingNode <;>
    cases h3 : gn.bIsDestroyingNode <;> cases h4 : gn.hasOwnerGraph <;>
    cases h5 : env.isSavingGraph <;> cases h6 : env.isLockedGraph <;>
    cases h7 : gn.nodeInstance <;> simp_all

/-! ### Concrete sample data used by witnesses and counterexamples -/

/-- A concrete exec pin descriptor. -/
def samplePinDescr (n : String) : FFlowPin :=
  { pinName := some n, pinType := "Exec", pinFriendlyName := "", pinToolTip := "" }

/-- A concrete live graph pin. -/
def sampleGraphPin (n : String) (d : EGPDDirection) (links : List Nat) : UEdGraphPin :=
  { pinName := some n, direction := d, pinType := "Exec", pinFriendlyName := "",
    pinToolTip := "", linkedTo := links, bOrphanedPin := false, bNotConnectable := false,
    bHidden := false, bSavePinIfOrphaned := true, parentPin := none, persistentData := "" }

/-- A concrete quiescent editor environment: no transaction, no save or lock in
progress, orphan pins enabled, one declared input and two declared outputs, and a
managed-pin recompute that finds nothing to change. -/
def sampleEnv : FlowEditorEnv :=
  { gIsTransacting := false, areOrphanPinsEnabled := true, isSavingGraph := false,
    isLockedGraph := false, isLoadingGraph := false, hasFlowAsset := true,
    cdoInputPins := [samplePinDescr "In"],
    cdoOutputPins := [samplePinDescr "Out", samplePinDescr "True"],
    contextInputs := [], contextOutputs := [],
    updateManagedPins := id }

/-- A concrete runtime node whose stored pins still include a dropped output pin. -/
def sampleFlowNode : UFlowNode :=
  { inputPins := [samplePinDescr "In"],
    outputPins := [samplePinDescr "Out", samplePinDescr "True", samplePinDescr "False"],
    supportsContextPins := true, canRefreshContextPinsOnLoad := true,
    canUserAddInput := true, canUserAddOutput := true }

/-- A concrete graph node in a stable editable state, whose `False` output still
carries a wire while the declaration dropped it. -/
def sampleGraphNode : GraphNodeState :=
  { pins := [sampleGraphPin "In" EGPDDirection.input [],
             sampleGraphPin "Out" EGPDDirection.output [1],
             sampleGraphPin "True" EGPDDirection.output [2],
             sampleGraphPin "False" EGPDDirection.output [7]],
    inputPins := [sampleGraphPin "In" EGPDDirection.input []],
    outputPins := [sampleGraphPin "Out" EGPDDirection.output [1],
                   sampleGraphPin "True" EGPDDirection.output [2],
                   sampleGraphPin "False" EGPDDirection.output [7]],
    nodeInstance := some (FlowNodeInstance.flowNode sampleFlowNode),
    hasOwnerGraph := true, bIsReconstructingNode := false, bIsDestroyingNode := false,
    bNeedsFullReconstruction := false, bDisableOrphanPinSaving := false,
    orphanedPinSaveMode := ESaveOrphanPinMode.SaveAll, bIsSubNode := false,
    parentNode := none }

/-! ### Claim C4: reconstruct() is a guarded no-op -/

/-- C4: if any guard precondition holds when `ReconstructNode` is called — a global
undo/redo transaction is in progress, the node is mid-reconstruction, the node is
mid-destruction, the Node Instance reference is invalid, the owning graph reference is
invalid, or the owning graph is mid-save or locked — then the call returns immediately
and the node state (pins, flags, and node-instance descriptor sequences) is entirely
unchanged. -/
theorem C4_reconstructNode_guarded_noop (env : FlowEditorEnv) (gn : GraphNodeState)
    (h : env.gIsTransacting = true ∨ gn.bIsReconstructingNode = true ∨
      gn.bIsDestroyingNode = true ∨ gn.nodeInstance = none ∨
      gn.hasOwnerGraph = false ∨ env.isSavingGraph = true ∨ env.isLockedGraph = true) :
    (UFlowGraphNode.ReconstructNode env gn).state = gn := by
  have hguard : UFlowGraphNode.CanReconstructNode env gn = false := by
    cases hb : UFlowGraphNode.CanReconstructNode env gn with
    | false => rfl
    | true =>
      rcases (canReconstructNode_eq_true_iff env gn).mp hb with ⟨a1, a2, a3, a4, a5, a6, a7⟩
      rcases h with h | h | h | h | h | h | h <;> simp_all
  unfold UFlowGraphNode.ReconstructNode
  rw [hguard]
  rfl

/-- C4 witness: for a concrete transacting environment the call leaves the sample
node untouched. -/
theorem C4_witness :
    (UFlowGraphNode.ReconstructNode { sampleEnv with gIsTransacting := true }
      sampleGraphNode).state = sampleGraphNode :=
  C4_reconstructNode_guarded_noop { sampleEnv with gIsTransacting := true }
    sampleGraphNode (Or.inl rfl)

/-! ### Claim C5 (corrected): the completion event fires only on unguarded calls -/

/-- C5 counterexample: the claim says `on_reconstruction_completed` fires exactly once
on every call, including guard-skipped ones; but on a guard-skipped call (here: a
global transaction is in progress) the code returns before reaching the event, which
therefore fires zero times. -/
theorem C5_counterexample :
    ¬ ((UFlowGraphNode.ReconstructNode { sampleEnv with gIsTransacting := true }
        sampleGraphNode).completedEvents = 1) := by
  decide

/-- C5 (amended): `OnReconstructNodeCompleted` fires exactly once on every call that
passes the `CanReconstructNode` guard — including no-rebuild passes — and zero times
on a guard-skipped call. -/
theorem C5_completed_event_iff_guard (env : FlowEditorEnv) (gn : GraphNodeState) :
    (UFlowGraphNode.ReconstructNode env gn).completedEvents =
      if UFlowGraphNode.CanReconstructNode env gn = true then 1 else 0 := by
  unfold UFlowGraphNode.ReconstructNode
  cases hb : UFlowGraphNode.CanReconstructNode env gn with
  | false => rfl
  | true =>
    simp only [Bool.not_true, Bool.false_eq_true, if_false, if_true]
    split <;> rfl

/-! ### Claim C10: the 256-pin cap on user-added pins -/

/-- C10: `CanUserAddInput` returns true exactly when the node instance is a flow node
that allows user-added inputs and the input view holds strictly fewer than 256 pins;
`CanUserAddOutput` likewise for outputs; at 256 or more pins in the direction the
operation is always refused. -/
theorem C10_userAddPin_cap (gn : GraphNodeState) :
    (UFlowGraphNode.CanUserAddInput gn = true ↔
      (∃ f, gn.nodeInstance = some (FlowNodeInstance.flowNode f) ∧
        f.canUserAddInput = true ∧ gn.inputPins.length < 256))
    ∧ (UFlowGraphNode.CanUserAddOutput gn = true ↔
      (∃ f, gn.nodeInstance = some (FlowNodeInstance.flowNode f) ∧
        f.canUserAddOutput = true ∧ gn.outputPins.length < 256))
    ∧ (256 ≤ gn.inputPins.length → UFlowGraphNode.CanUserAddInput gn = false)
    ∧ (256 ≤ gn.outputPins.length → UFlowGraphNode.CanUserAddOutput gn = false) := by
  unfold UFlowGraphNode.CanUserAddInput UFlowGraphNode.CanUserAddOutput
  cases h : gn.nodeInstance with
  | none => simp
  | some inst =>
    cases inst with
    | flowNode f =>
      refine ⟨?_, ?_, ?_, ?_⟩
      · rw [Bool.and_eq_true, decide_eq_true_iff]
        constructor
        · rintro ⟨h1, h2⟩
          exact ⟨f, rfl, h1, h2⟩
        · rintro ⟨f2, hf2, h1, h2⟩
          cases hf2
          exact ⟨h1, h2⟩
      · rw [Bool.and_eq_true, decide_eq_true_iff]
        constructor
        · rintro ⟨h1, h2⟩
          exact ⟨f, rfl, h1, h2⟩
        · rintro ⟨f2, hf2, h1, h2⟩
          cases hf2
          exact ⟨h1, h2⟩
      · intro hge
        rw [Bool.and_eq_false_iff]
        right
        rw [decide_eq_false_iff_not]
        omega
      · intro hge
        rw [Bool.and_eq_false_iff]
        right
        rw [decide_eq_false_iff_not]
        omega
    | addOn a => simp

set_option maxRecDepth 4000 in
/-- C10 witness: a node with 256 input pins refuses another user-added input even
though its flow node allows them, and the sample node accepts one. -/
theorem C10_witness :
    UFlowGraphNode.CanUserAddInput
      { sampleGraphNode with
        inputPins := List.replicate 256 (sampleGraphPin "In" EGPDDirection.input []) } = false
    ∧ UFlowGraphNode.CanUserAddInput sampleGraphNode = true :=
  ⟨(C10_userAddPin_cap _).2.2.1 (by decide),
   (C10_userAddPin_cap sampleGraphNode).1.mpr ⟨sampleFlowNode, rfl, rfl, by decide⟩⟩

/-! ### Claim C9 (corrected): once a sub-node, always a sub-node -/

/-- C9 counterexample: the claim says that once the parent-node reference has been set
non-null, no subsequent operation can return it to null; but
`SetParentNodeForSubNode(nullptr)` assigns the reference unconditionally, so after
setting a parent and then calling it with null the reference is null again (while the
`bIsSubNode` latch stays set). -/
theorem C9_counterexample :
    ((UFlowGraphNode.SetParentNodeForSubNode sampleGraphNode (some 1)).parentNode ≠ none)
    ∧ ((UFlowGraphNode.SetParentNodeForSubNode
          (UFlowGraphNode.SetParentNodeForSubNode sampleGraphNode (some 1)) none).parentNode
        = none) := by
  decide

/-- C9 (amended): once `SetParentNodeForSubNode` has been called with a non-null
parent, the `bIsSubNode` latch is set and no sequence of further
`SetParentNodeForSubNode` calls (the only operation writing these fields) can clear
it, so `IsSubNode()` stays true — even though the raw parent reference itself can be
reset to null. -/
theorem C9_isSubNode_monotone (gn : GraphNodeState) (p : Option Nat)
    (hp : p.isSome = true) (ops : List (Option Nat)) :
    UFlowGraphNode.IsSubNode
      (ops.foldl UFlowGraphNode.SetParentNodeForSubNode
        (UFlowGraphNode.SetParentNodeForSubNode gn p)) = true := by
  have hstep : ∀ (st : GraphNodeState) (q : Option Nat), st.bIsSubNode = true →
      (UFlowGraphNode.SetParentNodeForSubNode st q).bIsSubNode = true := by
    intro st q hst
    unfold UFlowGraphNode.SetParentNodeForSubNode
    split <;> simp [hst]
  have hfold : ∀ (l : List (Option Nat)) (st : GraphNodeState), st.bIsSubNode = true →
      (l.foldl UFlowGraphNode.SetParentNodeForSubNode st).bIsSubNode = true := by
    intro l
    induction l with
    | nil => intro st hst; exact hst
    | cons q rest ih =>
      intro st hst
      exact ih _ (hstep st q hst)
  have hbase : (UFlowGraphNode.SetParentNodeForSubNode gn p).bIsSubNode = true := by
    unfold UFlowGraphNode.SetParentNodeForSubNode
    rw [if_pos hp]
  unfold UFlowGraphNode.IsSubNode
  rw [hfold ops _ hbase]
  rfl

/-- C9 witness: set a parent, then null it out again; `IsSubNode` still reports true. -/
theorem C9_witness :
    UFlowGraphNode.IsSubNode
      ([none].foldl UFlowGraphNode.SetParentNodeForSubNode
        (UFlowGraphNode.SetParentNodeForSubNode sampleGraphNode (some 1))) = true :=
  C9_isSubNode_monotone sampleGraphNode (some 1) rfl [none]

/-! ### Claim C8: cycle rejection in CanAcceptSubNodeAsChild -/

/-- C8: whenever the candidate `otherNode` is an ancestor of `thisNode` in the parent
chain (and, as for every properly formed editor node, the candidate has a runtime
instance — without one the call still returns false, only with the missing-instance
reason), `CanAcceptSubNodeAsChild` returns false with the cycle-rejection reason, so
accepting can never make a node an ancestor of itself. -/
theorem C8_canAccept_rejects_ancestor (ctx : SubNodeGraphCtx) (fuel : Nat)
    (thisNode otherNode : Nat) (batch : List Nat)
    (hanc : UFlowGraphNode.IsAncestorNode ctx fuel thisNode otherNode = true)
    (hinst : ctx.nodeInstanceOf otherNode ≠ none) :
    UFlowGraphNode.CanAcceptSubNodeAsChild ctx fuel thisNode otherNode batch =
      (false, "Cannot be a AddOn of one of our own AddOns") := by
  unfold UFlowGraphNode.CanAcceptSubNodeAsChild
  cases h : ctx.nodeInstanceOf otherNode with
  | none => exact absurd h hinst
  | some inst =>
    rw [if_pos hanc]

/-- A concrete two-node context where node 2 is the parent of node 1 and the accept
policy would otherwise say yes. -/
def sampleSubNodeCtx : SubNodeGraphCtx :=
  { parentOf := fun n => if n = 1 then some 2 else none
    nodeInstanceOf := fun _ => some (FlowNodeInstance.addOn 0)
    classNameOf := fun _ => "FlowNode"
    checkAcceptFlowNodeAddOnChild := fun _ _ _ => EFlowAddOnAcceptResult.TentativeAccept }

/-- C8 witness: dragging node 1's ancestor (node 2) onto node 1 is rejected with the
cycle reason even though the accept policy tentatively accepts. -/
theorem C8_witness :
    UFlowGraphNode.CanAcceptSubNodeAsChild sampleSubNodeCtx 3 1 2 [] =
      (false, "Cannot be a AddOn of one of our own AddOns") :=
  C8_canAccept_rejects_ancestor sampleSubNodeCtx 3 1 2 [] (by decide)
    (by intro h; exact Option.noConfusion h)

/-! ### Claim C6 (corrected): the descriptor matching function -/

/-- Two descriptors sharing one name, and one with a fresh name, for the asymmetry
counterexample. -/
def dupPinX : FFlowPin :=
  { pinName := some "x", pinType := "Exec", pinFriendlyName := "", pinToolTip := "" }

def dupPinY : FFlowPin :=
  { pinName := some "y", pinType := "Exec", pinFriendlyName := "", pinToolTip := "" }

/-- C6 counterexample: the claim says that same length plus an every-left-has-a-
counterpart check is "equivalent to a full symmetric set-equality test"; with a
duplicated name this fails: `[x, x]` against `[x, y]` passes the check one way and
fails it the other way, so the function is not symmetric. -/
theorem C6_counterexample :
    CheckPinsMatch [dupPinX, dupPinX] [dupPinX, dupPinY] = true
    ∧ CheckPinsMatch [dupPinX, dupPinY] [dupPinX, dupPinX] = false := by
  decide

/-- C6 (amended): `CheckPinsMatch` returns true iff the sequences have the same
length and every left descriptor has a same-name-and-type counterpart on the right;
when the left sequence's names are pairwise distinct (the data model's per-direction
name-uniqueness invariant), a true result implies the symmetric test also passes, so
the check then amounts to a full set-equality test. With duplicated names the function
is asymmetric (see the counterexample). The function is side-effect-free: it is a pure
function of its two arguments. -/
theorem C6_checkPinsMatch_spec (leftPins rightPins : List FFlowPin) :
    (CheckPinsMatch leftPins rightPins = true ↔
      (leftPins.length = rightPins.length ∧
        ∀ left ∈ leftPins, ∃ right ∈ rightPins,
          left.pinName = right.pinName ∧ left.GetPinType = right.GetPinType))
    ∧ ((leftPins.map FFlowPin.pinName).Nodup →
        CheckPinsMatch leftPins rightPins = true →
        CheckPinsMatch rightPins leftPins = true) := by
  constructor
  · exact checkPinsMatch_eq_true_iff leftPins rightPins
  · intro hnodup hmatch
    rcases (checkPinsMatch_eq_true_iff leftPins rightPins).mp hmatch with ⟨hlen, hall⟩
    rw [checkPinsMatch_eq_true_iff]
    refine ⟨hlen.symm, ?_⟩
    -- key = (name, type); the left keys are distinct, all occur on the right, and the
    -- lengths agree, so the key sets coincide
    set K : FFlowPin → Option String × String := fun p => (p.pinName, p.GetPinType) with hK
    have hknodup : (leftPins.map K).Nodup := by
      have : leftPins.map FFlowPin.pinName = (leftPins.map K).map Prod.fst := by
        rw [List.map_map]
        rfl
      rw [this] at hnodup
      exact hnodup.of_map Prod.fst
    have hsub : (leftPins.map K).toFinset ⊆ (rightPins.map K).toFinset := by
      intro k hk
      rw [List.mem_toFinset, List.mem_map] at hk
      rcases hk with ⟨left, hl, hkl⟩
      rcases hall left hl with ⟨right, hr, h1, h2⟩
      rw [List.mem_toFinset, List.mem_map]
      refine ⟨right, hr, ?_⟩
      rw [← hkl, hK]
      simp [h1, h2]
    have hcardA : (leftPins.map K).toFinset.card = leftPins.length := by
      rw [List.toFinset_card_of_nodup hknodup, List.length_map]
    have hcardB : (rightPins.map K).toFinset.card ≤ leftPins.length := by
      calc (rightPins.map K).toFinset.card ≤ (rightPins.map K).length :=
            List.toFinset_card_le _
        _ = rightPins.length := List.length_map _ _
        _ = leftPins.length := hlen.symm
    have heq : (leftPins.map K).toFinset = (rightPins.map K).toFinset :=
      Finset.eq_of_subset_of_card_le hsub (by rw [hcardA]; exact hcardB)
    intro right hr
    have hkr : K right ∈ (rightPins.map K).toFinset := by
      rw [List.mem_toFinset, List.mem_map]
      exact ⟨right, hr, rfl⟩
    rw [← heq, List.mem_toFinset, List.mem_map] at hkr
    rcases hkr with ⟨left, hl, hkl⟩
    refine ⟨left, hl, ?_, ?_⟩
    · have := congrArg Prod.fst hkl
      simpa [hK] using this.symm
    · have := congrArg Prod.snd hkl
      simpa [hK] using this.symm

/-- C6 witness: on duplicate-free inputs a passing check is symmetric. -/
theorem C6_witness :
    CheckPinsMatch [dupPinY, dupPinX] [dupPinX, dupPinY] = true :=
  (C6_checkPinsMatch_spec [dupPinX, dupPinY] [dupPinY, dupPinX]).2 (by decide) (by decide)

/-! ### Rewire-loop invariants and Claim C2 -/

lemma findMatchIndexAux_spec (pins : List UEdGraphPin) (matched : List Bool)
    (name : Option String) :
    ∀ (fuel idx j : Nat), findMatchIndexAux pins matched name idx fuel = some j →
      matched[j]? = some false ∧ (pins[j]?).map UEdGraphPin.pinName = some name := by
  intro fuel
  induction fuel with
  | zero =>
    intro idx j h
    exact Option.noConfusion h
  | succ f ih =>
    intro idx j h
    unfold findMatchIndexAux at h
    split at h
    · cases h
      assumption
    · exact ih _ j h

/-! Branch equations for one rewiring step. -/

lemma rewireStep_none (env : FlowEditorEnv) (gn : GraphNodeState) (k : Nat)
    (st : RewireState) (i : Nat) (h : st.oldPins[i]? = none) :
    rewireStep env gn k st i = st := by
  unfold rewireStep
  rw [h]

lemma rewireStep_match (env : FlowEditorEnv) (gn : GraphNodeState) (k : Nat)
    (st : RewireState) (i : Nat) (oldPin newPin : UEdGraphPin) (j : Nat)
    (hold : st.oldPins[i]? = some oldPin)
    (hfound : findMatchIndexAux st.pins st.newPinMatched oldPin.pinName
      (if k ≠ 0 then i % k else 0) k = some j)
    (hpj : st.pins[j]? = some newPin) :
    rewireStep env gn k st i =
      { st with
        pins := st.pins.set j (UFlowGraphNode.ReconstructSinglePin newPin oldPin).1
        oldPins := st.oldPins.set i (UFlowGraphNode.ReconstructSinglePin newPin oldPin).2
        newPinMatched := st.newPinMatched.set j true
        matchedPins := st.matchedPins ++
          [(oldPin, (UFlowGraphNode.ReconstructSinglePin newPin oldPin).1)] } := by
  unfold rewireStep
  rw [hold]
  simp only [hfound, hpj, Option.isSome_some, Bool.not_true, Bool.and_false,
    Bool.false_eq_true, if_false]

lemma rewireStep_nomatch_orphan (env : FlowEditorEnv) (gn : GraphNodeState) (k : Nat)
    (st : RewireState) (i : Nat) (oldPin : UEdGraphPin)
    (hold : st.oldPins[i]? = some oldPin)
    (hfound : findMatchIndexAux st.pins st.newPinMatched oldPin.pinName
      (if k ≠ 0 then i % k else 0) k = none)
    (hcond : orphanPinRetentionCondition env gn oldPin = true) :
    rewireStep env gn k st i =
      { st with
        orphanedOldPins := st.orphanedOldPins ++
          [{ oldPin with bOrphanedPin := true, bNotConnectable := true }]
        oldPins := st.oldPins.eraseIdx i } := by
  unfold rewireStep
  rw [hold]
  simp only [hfound, Option.isSome_none, Bool.not_false, Bool.and_true, hcond, if_true]

lemma rewireStep_nomatch_nocond (env : FlowEditorEnv) (gn : GraphNodeState) (k : Nat)
    (st : RewireState) (i : Nat) (oldPin : UEdGraphPin)
    (hold : st.oldPins[i]? = some oldPin)
    (hfound : findMatchIndexAux st.pins st.newPinMatched oldPin.pinName
      (if k ≠ 0 then i % k else 0) k = none)
    (hcond : orphanPinRetentionCondition env gn oldPin = false) :
    rewireStep env gn k st i = st := by
  unfold rewireStep
  rw [hold]
  simp only [hfound, Option.isSome_none, Bool.not_false, Bool.and_true, hcond,
    Bool.false_eq_true, if_false]

/-- The invariant carried through the rewiring loop for the recorded old-to-new
matches: the new pin holds exactly the old pin's connections and name, and sits (at a
claimed slot) in the new pin array. -/
def rewireMatchedInv (st : RewireState) : Prop :=
  ∀ pr ∈ st.matchedPins,
    pr.2.linkedTo = pr.1.linkedTo ∧ pr.2.pinName = pr.1.pinName ∧
      ∃ j : Nat, st.newPinMatched[j]? = some true ∧ st.pins[j]? = some pr.2

lemma rewireStep_matchedInv (env : FlowEditorEnv) (gn : GraphNodeState) (k : Nat)
    (st : RewireState) (i : Nat) (h : rewireMatchedInv st) :
    rewireMatchedInv (rewireStep env gn k st i) := by
  unfold rewireMatchedInv at h ⊢
  cases hold : st.oldPins[i]? with
  | none =>
    rw [rewireStep_none env gn k st i hold]
    exact h
  | some oldPin =>
    cases hfound : findMatchIndexAux st.pins st.newPinMatched oldPin.pinName
        (if k ≠ 0 then i % k else 0) k with
    | none =>
      cases hcond : orphanPinRetentionCondition env gn oldPin with
      | false =>
        rw [rewireStep_nomatch_nocond env gn k st i oldPin hold hfound hcond]
        exact h
      | true =>
        rw [rewireStep_nomatch_orphan env gn k st i oldPin hold hfound hcond]
        intro pr hpr
        exact h pr hpr
    | some j =>
      rcases findMatchIndexAux_spec st.pins st.newPinMatched oldPin.pinName k _ j hfound
        with ⟨hjm, hjn⟩
      cases hpj : st.pins[j]? with
      | none =>
        rw [hpj] at hjn
        exact Option.noConfusion hjn
      | some newPin =>
        rw [rewireStep_match env gn k st i oldPin newPin j hold hfound hpj]
        rw [hpj] at hjn
        have hname : newPin.pinName = oldPin.pinName := by
          simpa using hjn
        have hjmlt : j < st.newPinMatched.length := by
          rcases List.getElem?_eq_some.mp hjm with ⟨hl, _⟩
          exact hl
        have hjplt : j < st.pins.length := by
          rcases List.getElem?_eq_some.mp hpj with ⟨hl, _⟩
          exact hl
        intro pr hpr
        rw [List.mem_append] at hpr
        cases hpr with
        | inl hprold =>
          rcases h pr hprold with ⟨h1, h2, j0, hj01, hj02⟩
          have hne : j ≠ j0 := by
            intro hje
            rw [← hje] at hj01
            rw [hj01] at hjm
            cases hjm
          refine ⟨h1, h2, j0, ?_, ?_⟩
          · rw [List.getElem?_set, if_neg hne]
            exact hj01
          · rw [List.getElem?_set, if_neg hne]
            exact hj02
        | inr hprnew =>
          rw [List.mem_singleton] at hprnew
          subst hprnew
          refine ⟨rfl, hname ▸ rfl, j, ?_, ?_⟩
          · rw [List.getElem?_set, if_pos rfl, if_pos hjmlt]
          · rw [List.getElem?_set, if_pos rfl, if_pos hjplt]

lemma rewireLoop_matchedInv (env : FlowEditorEnv) (gn : GraphNodeState) (k : Nat) :
    ∀ (fuel : Nat) (st : RewireState), rewireMatchedInv st →
      rewireMatchedInv (rewireLoop env gn k st fuel) := by
  intro fuel
  induction fuel with
  | zero => intro st h; exact h
  | succ f ih =>
    intro st h
    exact ih _ (rewireStep_matchedInv env gn k st f h)

lemma appendOrphan_fold_pins (l : List UEdGraphPin) :
    ∀ (g : GraphNodeState),
      (l.foldl appendOrphanedPin g).pins = g.pins ++ l.filter (fun q => q.parentPin.isNone) := by
  induction l with
  | nil => intro g; simp
  | cons q rest ih =>
    intro g
    rw [List.foldl_cons, ih]
    unfold appendOrphanedPin
    by_cases hq : q.parentPin = none
    · rw [if_pos hq]
      have : q.parentPin.isNone = true := Option.isNone_iff_eq_none.mpr hq
      simp [List.filter_cons, this]
    · rw [if_neg hq]
      have : q.parentPin.isNone = false := by
        cases hqq : q.parentPin with
        | none => exact absurd hqq hq
        | some v => rfl
      simp [List.filter_cons, this]

/-- C2: for every old pin matched by the rewire pass to a new pin (the pins that exist
before and after reconstruction under the same name — the match is by name, with each
new pin claimed at most once), the new pin carries exactly the old pin's connection
list, shares its name, and is present in the rebuilt pin sequence. Connection
endpoints reference pins of other nodes in this single-node model. -/
theorem C2_rewire_preserves_connections (env : FlowEditorEnv) (gn : GraphNodeState)
    (oldPins : List UEdGraphPin) (po pn : UEdGraphPin)
    (hmem : (po, pn) ∈ (UFlowGraphNode.RewireOldPinsToNewPins env gn oldPins).2.matchedPins) :
    pn.linkedTo = po.linkedTo ∧ pn.pinName = po.pinName ∧
      pn ∈ (UFlowGraphNode.RewireOldPinsToNewPins env gn oldPins).1.pins := by
  unfold UFlowGraphNode.RewireOldPinsToNewPins at hmem ⊢
  simp only at hmem ⊢
  set st0 : RewireState :=
    { pins := gn.pins
      newPinMatched := List.replicate gn.pins.length false
      oldPins := oldPins
      orphanedOldPins := []
      matchedPins := [] } with hst0
  have hinv0 : rewireMatchedInv st0 := by
    unfold rewireMatchedInv
    intro pr hpr
    rw [hst0] at hpr
    exact absurd hpr (List.not_mem_nil pr)
  have hinv := rewireLoop_matchedInv env gn gn.pins.length oldPins.length st0 hinv0
  rcases hinv (po, pn) hmem with ⟨h1, h2, j, _, hj2⟩
  refine ⟨h1, h2, ?_⟩
  rw [appendOrphan_fold_pins]
  apply List.mem_append_left
  exact List.getElem?_mem hj2

/-- The concrete pins of the C2 witness: an old `In` pin wired to an external pin `5`
is rewired onto the freshly allocated `In` pin. -/
def c2OldPin : UEdGraphPin := sampleGraphPin "In" EGPDDirection.input [5]

def c2NewPin : UEdGraphPin := sampleGraphPin "In" EGPDDirection.input []

def c2Node : GraphNodeState :=
  { sampleGraphNode with pins := [c2NewPin], inputPins := [c2NewPin], outputPins := [] }

/-- C2 witness: on the concrete node the matched pair is recorded and the new pin
carries the old pin's wire. -/
theorem C2_witness :
    ({ c2NewPin with linkedTo := [5], persistentData := "" }).linkedTo = c2OldPin.linkedTo
    ∧ ({ c2NewPin with linkedTo := [5], persistentData := "" }).pinName = c2OldPin.pinName
    ∧ ({ c2NewPin with linkedTo := [5], persistentData := "" }) ∈
        (UFlowGraphNode.RewireOldPinsToNewPins sampleEnv c2Node [c2OldPin]).1.pins :=
  C2_rewire_preserves_connections sampleEnv c2Node [c2OldPin] c2OldPin
    { c2NewPin with linkedTo := [5], persistentData := "" } (by decide)

/-! ### Rewire-loop invariants for orphan retention (Claim C3) -/

/-- The claim-relevant signature of a live pin: its name and orphan flag. -/
def pinSig (q : UEdGraphPin) : Option String × Bool := (q.pinName, q.bOrphanedPin)

lemma reconstructSinglePin_sig (newPin oldPin : UEdGraphPin) :
    pinSig (UFlowGraphNode.ReconstructSinglePin newPin oldPin).1 = pinSig newPin := rfl

lemma orphanCondition_flag (env : FlowEditorEnv) (gn : GraphNodeState) (p : UEdGraphPin) :
    orphanPinRetentionCondition env gn
      { p with bOrphanedPin := true, bNotConnectable := true } =
      orphanPinRetentionCondition env gn p := rfl

lemma rewireStep_pins_sig (env : FlowEditorEnv) (gn : GraphNodeState) (k : Nat)
    (st : RewireState) (i : Nat) :
    ((rewireStep env gn k st i).pins).map pinSig = st.pins.map pinSig := by
  cases hold : st.oldPins[i]? with
  | none => rw [rewireStep_none env gn k st i hold]
  | some oldPin =>
    cases hfound : findMatchIndexAux st.pins st.newPinMatched oldPin.pinName
        (if k ≠ 0 then i % k else 0) k with
    | none =>
      cases hcond : orphanPinRetentionCondition env gn oldPin with
      | false => rw [rewireStep_nomatch_nocond env gn k st i oldPin hold hfound hcond]
      | true => rw [rewireStep_nomatch_orphan env gn k st i oldPin hold hfound hcond]
    | some j =>
      rcases findMatchIndexAux_spec st.pins st.newPinMatched oldPin.pinName k _ j hfound
        with ⟨_, hjn⟩
      cases hpj : st.pins[j]? with
      | none =>
        rw [hpj] at hjn
        exact Option.noConfusion hjn
      | some newPin =>
        rw [rewireStep_match env gn k st i oldPin newPin j hold hfound hpj]
        exact list_map_set_same pinSig hpj (reconstructSinglePin_sig newPin oldPin)

lemma rewireLoop_pins_sig (env : FlowEditorEnv) (gn : GraphNodeState) (k : Nat) :
    ∀ (fuel : Nat) (st : RewireState),
      ((rewireLoop env gn k st fuel).pins).map pinSig = st.pins.map pinSig := by
  intro fuel
  induction fuel with
  | zero => intro st; rfl
  | succ f ih =>
    intro st
    rw [rewireLoop]
    rw [ih, rewireStep_pins_sig]

lemma rewireLoop_pins_length (env : FlowEditorEnv) (gn : GraphNodeState) (k : Nat)
    (fuel : Nat) (st : RewireState) :
    (rewireLoop env gn k st fuel).pins.length = st.pins.length := by
  have := rewireLoop_pins_sig env gn k fuel st
  have h1 := congrArg List.length this
  rwa [List.length_map, List.length_map] at h1

lemma rewireLoop_orphans_cond (env : FlowEditorEnv) (gn : GraphNodeState) (k : Nat) :
    ∀ (fuel : Nat) (st : RewireState),
      (∀ q ∈ st.orphanedOldPins, orphanPinRetentionCondition env gn q = true) →
      ∀ q ∈ (rewireLoop env gn k st fuel).orphanedOldPins,
        orphanPinRetentionCondition env gn q = true := by
  intro fuel
  induction fuel with
  | zero => intro st h; exact h
  | succ f ih =>
    intro st h
    rw [rewireLoop]
    apply ih
    cases hold : st.oldPins[f]? with
    | none =>
      rw [rewireStep_none env gn k st f hold]
      exact h
    | some oldPin =>
      cases hfound : findMatchIndexAux st.pins st.newPinMatched oldPin.pinName
          (if k ≠ 0 then f % k else 0) k with
      | none =>
        cases hcond : orphanPinRetentionCondition env gn oldPin with
        | false =>
          rw [rewireStep_nomatch_nocond env gn k st f oldPin hold hfound hcond]
          exact h
        | true =>
          rw [rewireStep_nomatch_orphan env gn k st f oldPin hold hfound hcond]
          intro q hq
          rw [List.mem_append] at hq
          cases hq with
          | inl hql => exact h q hql
          | inr hqr =>
            rw [List.mem_singleton] at hqr
            subst hqr
            rw [orphanCondition_flag]
            exact hcond
      | some j =>
        rcases findMatchIndexAux_spec st.pins st.newPinMatched oldPin.pinName k _ j hfound
          with ⟨_, hjn⟩
        cases hpj : st.pins[j]? with
        | none =>
          rw [hpj] at hjn
          exact Option.noConfusion hjn
        | some newPin =>
          rw [rewireStep_match env gn k st f oldPin newPin j hold hfound hpj]
          exact h

lemma rewireLoop_orphans_suffix (env : FlowEditorEnv) (gn : GraphNodeState) (k : Nat) :
    ∀ (fuel : Nat) (st : RewireState),
      ∃ tail, (rewireLoop env gn k st fuel).orphanedOldPins = st.orphanedOldPins ++ tail := by
  intro fuel
  induction fuel with
  | zero => intro st; exact ⟨[], by rw [rewireLoop]; simp⟩
  | succ f ih =>
    intro st
    rw [rewireLoop]
    cases hold : st.oldPins[f]? with
    | none =>
      rw [rewireStep_none env gn k st f hold]
      exact ih st
    | some oldPin =>
      cases hfound : findMatchIndexAux st.pins st.newPinMatched oldPin.pinName
          (if k ≠ 0 then f % k else 0) k with
      | none =>
        cases hcond : orphanPinRetentionCondition env gn oldPin with
        | false =>
          rw [rewireStep_nomatch_nocond env gn k st f oldPin hold hfound hcond]
          exact ih st
        | true =>
          rw [rewireStep_nomatch_orphan env gn k st f oldPin hold hfound hcond]
          rcases ih ({ st with
              orphanedOldPins := st.orphanedOldPins ++
                [{ oldPin with bOrphanedPin := true, bNotConnectable := true }]
              oldPins := st.oldPins.eraseIdx f }) with ⟨tail, htail⟩
          exact ⟨[{ oldPin with bOrphanedPin := true, bNotConnectable := true }] ++ tail,
            by rw [htail]; simp⟩
      | some j =>
        rcases findMatchIndexAux_spec st.pins st.newPinMatched oldPin.pinName k _ j hfound
          with ⟨_, hjn⟩
        cases hpj : st.pins[j]? with
        | none =>
          rw [hpj] at hjn
          exact Option.noConfusion hjn
        | some newPin =>
          rw [rewireStep_match env gn k st f oldPin newPin j hold hfound hpj]
          exact ih _

lemma rewireLoop_oldPins_keep (env : FlowEditorEnv) (gn : GraphNodeState) (k : Nat)
    (p : UEdGraphPin) :
    ∀ (fuel : Nat) (st : RewireState) (idx : Nat), fuel ≤ idx →
      st.oldPins[idx]? = some p → p ∈ (rewireLoop env gn k st fuel).oldPins := by
  intro fuel
  induction fuel with
  | zero =>
    intro st idx _ hidx
    exact List.getElem?_mem hidx
  | succ f ih =>
    intro st idx hle hidx
    rw [rewireLoop]
    cases hold : st.oldPins[f]? with
    | none =>
      rw [rewireStep_none env gn k st f hold]
      exact ih st idx (by omega) hidx
    | some oldPin =>
      cases hfound : findMatchIndexAux st.pins st.newPinMatched oldPin.pinName
          (if k ≠ 0 then f % k else 0) k with
      | none =>
        cases hcond : orphanPinRetentionCondition env gn oldPin with
        | false =>
          rw [rewireStep_nomatch_nocond env gn k st f oldPin hold hfound hcond]
          exact ih st idx (by omega) hidx
        | true =>
          rw [rewireStep_nomatch_orphan env gn k st f oldPin hold hfound hcond]
          apply ih _ (idx - 1) (by omega)
          show (st.oldPins.eraseIdx f)[idx - 1]? = some p
          rw [List.getElem?_eraseIdx, if_neg (by omega)]
          have : idx - 1 + 1 = idx := by omega
          rw [this]
          exact hidx
      | some j =>
        rcases findMatchIndexAux_spec st.pins st.newPinMatched oldPin.pinName k _ j hfound
          with ⟨_, hjn⟩
        cases hpj : st.pins[j]? with
        | none =>
          rw [hpj] at hjn
          exact Option.noConfusion hjn
        | some newPin =>
          rw [rewireStep_match env gn k st f oldPin newPin j hold hfound hpj]
          apply ih _ idx (by omega)
          show (st.oldPins.set f _)[idx]? = some p
          rw [List.getElem?_set, if_neg (by omega)]
          exact hidx

lemma findMatchIndexAux_none_of_name_absent (pins : List UEdGraphPin) (matched : List Bool)
    (name : Option String) (h : name ∉ pins.map UEdGraphPin.pinName) :
    ∀ (fuel idx : Nat), findMatchIndexAux pins matched name idx fuel = none := by
  intro fuel
  induction fuel with
  | zero => intro idx; rfl
  | succ f ih =>
    intro idx
    unfold findMatchIndexAux
    rw [if_neg, ih]
    rintro ⟨_, hmap⟩
    cases hpi : pins[idx]? with
    | none =>
      rw [hpi] at hmap
      exact Option.noConfusion hmap
    | some q =>
      rw [hpi] at hmap
      apply h
      rw [List.mem_map]
      refine ⟨q, List.getElem?_mem hpi, ?_⟩
      simpa using hmap

lemma name_map_eq_of_sig_eq {l l' : List UEdGraphPin}
    (h : l.map pinSig = l'.map pinSig) :
    l.map UEdGraphPin.pinName = l'.map UEdGraphPin.pinName := by
  have h1 := congrArg (List.map Prod.fst) h
  rwa [List.map_map, List.map_map] at h1

/-- The fate of an old pin whose name does not occur among the new pins: it is
orphan-collected exactly when the retention condition holds, and stays in the old-pin
array (for destruction) otherwise. -/
lemma rewireLoop_unmatched (env : FlowEditorEnv) (gn : GraphNodeState) (k : Nat)
    (p : UEdGraphPin) :
    ∀ (m : Nat) (st : RewireState) (i : Nat), i < m →
      st.oldPins[i]? = some p →
      p.pinName ∉ st.pins.map UEdGraphPin.pinName →
      ((orphanPinRetentionCondition env gn p = true →
          ({ p with bOrphanedPin := true, bNotConnectable := true }) ∈
            (rewireLoop env gn k st m).orphanedOldPins)
       ∧ (orphanPinRetentionCondition env gn p = false →
          p ∈ (rewireLoop env gn k st m).oldPins)) := by
  intro m
  induction m with
  | zero =>
    intro st i him
    exact absurd him (Nat.not_lt_zero i)
  | succ f ih =>
    intro st i him hidx hname
    by_cases hif : i = f
    · -- this step is p's own iteration
      subst hif
      rw [rewireLoop]
      have hfound : findMatchIndexAux st.pins st.newPinMatched p.pinName
          (if k ≠ 0 then i % k else 0) k = none :=
        findMatchIndexAux_none_of_name_absent st.pins st.newPinMatched p.pinName hname k _
      constructor
      · intro hcond
        rw [rewireStep_nomatch_orphan env gn k st i p hidx hfound hcond]
        rcases rewireLoop_orphans_suffix env gn k i ({ st with
            orphanedOldPins := st.orphanedOldPins ++
              [{ p with bOrphanedPin := true, bNotConnectable := true }]
            oldPins := st.oldPins.eraseIdx i }) with ⟨tail, htail⟩
        rw [htail]
        apply List.mem_append_left
        apply List.mem_append_right
        exact List.mem_singleton.mpr rfl
      · intro hcond
        rw [rewireStep_nomatch_nocond env gn k st i p hidx hfound hcond]
        exact rewireLoop_oldPins_keep env gn k p i st i (le_refl i) hidx
    · -- a later old pin is processed first; p's slot and the pin names are untouched
      have hlt : i < f := by omega
      rw [rewireLoop]
      have hnamestep : p.pinName ∉ (rewireStep env gn k st f).pins.map UEdGraphPin.pinName := by
        rw [name_map_eq_of_sig_eq (rewireStep_pins_sig env gn k st f)]
        exact hname
      cases hold : st.oldPins[f]? with
      | none =>
        rw [rewireStep_none env gn k st f hold] at hnamestep ⊢
        exact ih st i hlt hidx hname
      | some oldPin =>
        cases hfound : findMatchIndexAux st.pins st.newPinMatched oldPin.pinName
            (if k ≠ 0 then f % k else 0) k with
        | none =>
          cases hcond : orphanPinRetentionCondition env gn oldPin with
          | false =>
            rw [rewireStep_nomatch_nocond env gn k st f oldPin hold hfound hcond]
            exact ih st i hlt hidx hname
          | true =>
            rw [rewireStep_nomatch_orphan env gn k st f oldPin hold hfound hcond] at hnamestep ⊢
            apply ih _ i hlt _ hnamestep
            show (st.oldPins.eraseIdx f)[i]? = some p
            rw [List.getElem?_eraseIdx, if_pos hlt]
            exact hidx
        | some j =>
          rcases findMatchIndexAux_spec st.pins st.newPinMatched oldPin.pinName k _ j hfound
            with ⟨_, hjn⟩
          cases hpj : st.pins[j]? with
          | none =>
            rw [hpj] at hjn
            exact Option.noConfusion hjn
          | some newPin =>
            rw [rewireStep_match env gn k st f oldPin newPin j hold hfound hpj] at hnamestep ⊢
            apply ih _ i hlt _ hnamestep
            show (st.oldPins.set f _)[i]? = some p
            rw [List.getElem?_set, if_neg (by omega)]
            exact hidx

/-! ### Claim C3: orphan retention during the full pin-array rebuild -/

/-- C3: during the rebuild, an old pin whose name is absent from the freshly
allocated pin set is retained — flagged `orphaned` and `not_connectable` and placed
at a position after all freshly allocated pins — exactly when the retention condition
holds (orphan pins globally enabled, node has not disabled orphan saving, save mode
`SaveAll`, pin not hidden, pin saves itself when orphaned, and at least one live
connection); when the condition fails the pin stays in the old-pin array, which the
caller destroys after `BreakAllPinLinks` severs its connections. Hypothesis
`hparent`: flow pins have no split-parent pin (every pin created by this module has
`parentPin = none`; a parented orphan would be collected but silently dropped from the
sequence). -/
theorem C3_orphan_retention (env : FlowEditorEnv) (gn : GraphNodeState)
    (oldPins : List UEdGraphPin) (i : Nat) (p : UEdGraphPin)
    (hp : oldPins[i]? = some p)
    (hname : p.pinName ∉ gn.pins.map UEdGraphPin.pinName)
    (hparent : p.parentPin = none) :
    ((orphanPinRetentionCondition env gn p = true ↔
        ∃ kk : Nat, gn.pins.length ≤ kk ∧
          ((UFlowGraphNode.RewireOldPinsToNewPins env gn oldPins).1.pins)[kk]? =
            some { p with bOrphanedPin := true, bNotConnectable := true })
     ∧ (orphanPinRetentionCondition env gn p = false →
        p ∈ (UFlowGraphNode.RewireOldPinsToNewPins env gn oldPins).2.oldPins
        ∧ (UEdGraphPin.BreakAllPinLinks p).linkedTo = [])) := by
  have him : i < oldPins.length := by
    rcases List.getElem?_eq_some.mp hp with ⟨hl, _⟩
    exact hl
  unfold UFlowGraphNode.RewireOldPinsToNewPins
  simp only
  set st0 : RewireState :=
    { pins := gn.pins
      newPinMatched := List.replicate gn.pins.length false
      oldPins := oldPins
      orphanedOldPins := []
      matchedPins := [] } with hst0
  set stF := rewireLoop env gn gn.pins.length st0 oldPins.length with hstF
  have hmain := rewireLoop_unmatched env gn gn.pins.length p oldPins.length st0 i him hp hname
  rw [← hstF] at hmain
  have hlenF : stF.pins.length = gn.pins.length := by
    rw [hstF]
    exact rewireLoop_pins_length env gn gn.pins.length oldPins.length st0
  have hcondInv : ∀ q ∈ stF.orphanedOldPins, orphanPinRetentionCondition env gn q = true := by
    rw [hstF]
    apply rewireLoop_orphans_cond
    intro q hq
    exact absurd hq (List.not_mem_nil q)
  have hpins : ((stF.orphanedOldPins.reverse).foldl appendOrphanedPin
      { gn with pins := stF.pins }).pins =
      stF.pins ++ (stF.orphanedOldPins.reverse).filter (fun q => q.parentPin.isNone) := by
    exact appendOrphan_fold_pins stF.orphanedOldPins.reverse { gn with pins := stF.pins }
  set flagged := { p with bOrphanedPin := true, bNotConnectable := true } with hflag
  constructor
  · constructor
    · intro hcond
      have hmem : flagged ∈ stF.orphanedOldPins := hmain.1 hcond
      have hmemf : flagged ∈ (stF.orphanedOldPins.reverse).filter
          (fun q => q.parentPin.isNone) := by
        rw [List.mem_filter, List.mem_reverse]
        refine ⟨hmem, ?_⟩
        show flagged.parentPin.isNone = true
        rw [hflag]
        show p.parentPin.isNone = true
        rw [hparent]
        rfl
      rcases List.getElem?_of_mem hmemf with ⟨idx, hidx⟩
      refine ⟨stF.pins.length + idx, by omega, ?_⟩
      rw [hpins, List.getElem?_append_right (by omega)]
      have : stF.pins.length + idx - stF.pins.length = idx := by omega
      rw [this]
      exact hidx
    · rintro ⟨kk, hkk, hget⟩
      rw [hpins] at hget
      rw [List.getElem?_append_right (by omega)] at hget
      have hmemf : flagged ∈ (stF.orphanedOldPins.reverse).filter
          (fun q => q.parentPin.isNone) := List.getElem?_mem hget
      rw [List.mem_filter, List.mem_reverse] at hmemf
      have := hcondInv flagged hmemf.1
      rw [hflag, orphanCondition_flag] at this
      exact this
  · intro hcond
    exact ⟨hmain.2 hcond, rfl⟩

/-- The C3 witness node: fresh pins `In`, `Out`, `True` just allocated. -/
def c3FreshNode : GraphNodeState :=
  { sampleGraphNode with
    pins := [sampleGraphPin "In" EGPDDirection.input [],
             sampleGraphPin "Out" EGPDDirection.output [],
             sampleGraphPin "True" EGPDDirection.output []],
    inputPins := [sampleGraphPin "In" EGPDDirection.input []],
    outputPins := [sampleGraphPin "Out" EGPDDirection.output [],
                   sampleGraphPin "True" EGPDDirection.output []] }

/-- C3 witness: the connected, no-longer-declared `False` pin of the sample node is
retained orphaned after the three fresh pins. -/
theorem C3_witness :
    ∃ kk : Nat, c3FreshNode.pins.length ≤ kk ∧
      ((UFlowGraphNode.RewireOldPinsToNewPins sampleEnv c3FreshNode
          sampleGraphNode.pins).1.pins)[kk]? =
        some { sampleGraphPin "False" EGPDDirection.output [7] with
          bOrphanedPin := true, bNotConnectable := true } :=
  ((C3_orphan_retention sampleEnv c3FreshNode sampleGraphNode.pins 3
      (sampleGraphPin "False" EGPDDirection.output [7]) (by decide) (by decide) rfl).1).mp
    (by decide)

/-! ### Claim C7: mirror fidelity of the runtime add-on list -/

/-- The runtime counterparts the mirror should produce: the add-on instances of the
valid sub-nodes, in sub-node order. -/
def validAddOnInstances (subNodes : List EditorSubNodeTree) : List Nat :=
  (subNodes.filter EditorSubNodeTree.isValidNode).filterMap EditorSubNodeTree.addOnNodeInstance

/-- The instance stored on a tree node. -/
def EditorSubNodeTree.instRef : EditorSubNodeTree → Option MirrorInstance
  | .node _ inst _ => inst

/-- The runtime flat add-on list of a tree node (empty when the instance is null). -/
def EditorSubNodeTree.runtimeAddOns (t : EditorSubNodeTree) : List Nat :=
  match t.instRef with
  | some i => i.addOns
  | none => []

/-- A sub-node is skipped (and logged) by the mirror loop when it is invalid or has
no add-on instance. -/
def mirrorSkipped (subNodes : List EditorSubNodeTree) : Nat :=
  (subNodes.filter
    (fun s => !(s.isValidNode && s.addOnNodeInstance.isSome))).length

lemma mirrorStep_invalid (acc : List Nat × Nat) (s : EditorSubNodeTree)
    (h : s.isValidNode = false) : mirrorStep acc s = (acc.1, acc.2 + 1) := by
  unfold mirrorStep
  rw [h]
  rfl

lemma mirrorStep_noAddOn (acc : List Nat × Nat) (s : EditorSubNodeTree)
    (hv : s.isValidNode = true) (ha : s.addOnNodeInstance = none) :
    mirrorStep acc s = (acc.1, acc.2 + 1) := by
  unfold mirrorStep
  rw [hv, ha]
  rfl

lemma mirrorStep_addOn (acc : List Nat × Nat) (s : EditorSubNodeTree) (a : Nat)
    (hv : s.isValidNode = true) (ha : s.addOnNodeInstance = some a) :
    mirrorStep acc s = (TArrayAddUnique acc.1 a, acc.2) := by
  unfold mirrorStep
  rw [hv, ha]
  rfl

lemma mirror_fold_spec :
    ∀ (subNodes : List EditorSubNodeTree) (acc : List Nat) (cnt : Nat),
      (∀ x ∈ validAddOnInstances subNodes, x ∉ acc) →
      (validAddOnInstances subNodes).Nodup →
      subNodes.foldl mirrorStep (acc, cnt) =
        (acc ++ validAddOnInstances subNodes, cnt + mirrorSkipped subNodes) := by
  intro subNodes
  induction subNodes with
  | nil =>
    intro acc cnt _ _
    simp [validAddOnInstances, mirrorSkipped]
  | cons s rest ih =>
    intro acc cnt hdisj hnodup
    rw [List.foldl_cons]
    cases hv : s.isValidNode with
    | false =>
      rw [mirrorStep_invalid (acc, cnt) s hv]
      have hvfilter : validAddOnInstances (s :: rest) = validAddOnInstances rest := by
        unfold validAddOnInstances
        rw [List.filter_cons, hv]
        simp
      have hskip : mirrorSkipped (s :: rest) = mirrorSkipped rest + 1 := by
        unfold mirrorSkipped
        rw [List.filter_cons]
        have hb : (!(s.isValidNode && s.addOnNodeInstance.isSome)) = true := by
          rw [hv]
          rfl
        rw [hb]
        simp [Nat.add_comm]
      rw [hvfilter] at hdisj hnodup
      show List.foldl mirrorStep (acc, cnt + 1) rest = _
      rw [ih acc (cnt + 1) hdisj hnodup, hvfilter, hskip]
      have harith : cnt + 1 + mirrorSkipped rest = cnt + (mirrorSkipped rest + 1) := by omega
      rw [harith]
    | true =>
      cases ha : s.addOnNodeInstance with
      | none =>
        rw [mirrorStep_noAddOn (acc, cnt) s hv ha]
        have hvfilter : validAddOnInstances (s :: rest) = validAddOnInstances rest := by
          unfold validAddOnInstances
          rw [List.filter_cons, hv]
          simp [List.filterMap_cons, ha]
        have hskip : mirrorSkipped (s :: rest) = mirrorSkipped rest + 1 := by
          unfold mirrorSkipped
          rw [List.filter_cons]
          have hb : (!(s.isValidNode && s.addOnNodeInstance.isSome)) = true := by
            rw [hv, ha]
            rfl
          rw [hb]
          simp [Nat.add_comm]
        rw [hvfilter] at hdisj hnodup
        show List.foldl mirrorStep (acc, cnt + 1) rest = _
        rw [ih acc (cnt + 1) hdisj hnodup, hvfilter, hskip]
        have harith : cnt + 1 + mirrorSkipped rest = cnt + (mirrorSkipped rest + 1) := by omega
        rw [harith]
      | some a =>
        rw [mirrorStep_addOn (acc, cnt) s a hv ha]
        have hvfilter : validAddOnInstances (s :: rest) = a :: validAddOnInstances rest := by
          unfold validAddOnInstances
          rw [List.filter_cons, hv]
          simp [List.filterMap_cons, ha]
        rw [hvfilter] at hdisj hnodup
        have hanotacc : a ∉ acc := hdisj a (List.mem_cons_self a _)
        have hadd : TArrayAddUnique acc a = acc ++ [a] := by
          unfold TArrayAddUnique
          rw [if_neg hanotacc]
        show List.foldl mirrorStep (TArrayAddUnique acc a, cnt) rest = _
        rw [hadd]
        have hnodup2 : (validAddOnInstances rest).Nodup := hnodup.of_cons
        have hdisj2 : ∀ x ∈ validAddOnInstances rest, x ∉ acc ++ [a] := by
          intro x hx
          rw [List.mem_append, List.mem_singleton]
          rintro (hxa | hxa)
          · exact hdisj x (List.mem_cons_of_mem a hx) hxa
          · subst hxa
            exact (List.nodup_cons.mp hnodup).1 hx
        have hskip : mirrorSkipped (s :: rest) = mirrorSkipped rest := by
          unfold mirrorSkipped
          rw [List.filter_cons]
          have hb : (!(s.isValidNode && s.addOnNodeInstance.isSome)) = false := by
            rw [hv, ha]
            rfl
          rw [hb]
          simp
        rw [ih (acc ++ [a]) cnt hdisj2 hnodup2, hvfilter, hskip, List.append_assoc,
          List.singleton_append]

lemma validAddOnInstances_length (subNodes : List EditorSubNodeTree) :
    (validAddOnInstances subNodes).length =
      (subNodes.filter (fun s => s.isValidNode && s.addOnNodeInstance.isSome)).length := by
  induction subNodes with
  | nil => rfl
  | cons s rest ih =>
    unfold validAddOnInstances at ih ⊢
    rw [List.filter_cons, List.filter_cons]
    cases hv : s.isValidNode with
    | false => simpa using ih
    | true =>
      cases ha : s.addOnNodeInstance with
      | none => simpa [List.filterMap_cons, ha] using ih
      | some a => simpa [List.filterMap_cons, ha] using ih

/-- C7: after `RebuildRuntimeAddOnsFromEditorSubNodes` on a node with a valid
instance, the runtime flat add-on list is exactly the sequence of add-on instances of
the valid sub-nodes, in sub-node order; its length is the number of sub-nodes with a
valid add-on instance, it has no duplicates (the hypothesis that distinct sub-nodes
own distinct instances is the editor's ownership invariant — with shared instances
`AddUnique` would collapse them), and every skipped sub-node (invalid, or without an
add-on instance) produces one logged diagnostic while the rebuild continues. -/
theorem C7_mirror_fidelity (valid : Bool) (inst : MirrorInstance)
    (subNodes : List EditorSubNodeTree)
    (hnodup : (validAddOnInstances subNodes).Nodup) :
    (RebuildRuntimeAddOnsFromEditorSubNodes
        (EditorSubNodeTree.node valid (some inst) subNodes)).runtimeAddOns =
      validAddOnInstances subNodes
    ∧ (RebuildRuntimeAddOnsFromEditorSubNodes
        (EditorSubNodeTree.node valid (some inst) subNodes)).runtimeAddOns.length =
      (subNodes.filter (fun s => s.isValidNode && s.addOnNodeInstance.isSome)).length
    ∧ (RebuildRuntimeAddOnsFromEditorSubNodes
        (EditorSubNodeTree.node valid (some inst) subNodes)).runtimeAddOns.Nodup
    ∧ (mirrorSubNodesToAddOns subNodes).2 = mirrorSkipped subNodes := by
  have hfold := mirror_fold_spec subNodes [] 0
    (by intro x _ hx; exact absurd hx (List.not_mem_nil x)) hnodup
  have hmirror : mirrorSubNodesToAddOns subNodes =
      (validAddOnInstances subNodes, mirrorSkipped subNodes) := by
    unfold mirrorSubNodesToAddOns
    rw [hfold]
    simp
  have hshape : (RebuildRuntimeAddOnsFromEditorSubNodes
      (EditorSubNodeTree.node valid (some inst) subNodes)).runtimeAddOns =
      (mirrorSubNodesToAddOns subNodes).1 := by
    rw [RebuildRuntimeAddOnsFromEditorSubNodes]
    rfl
  rw [hshape, hmirror]
  exact ⟨rfl, validAddOnInstances_length subNodes, hnodup, rfl⟩


/-- The C7 witness forest: a valid add-on sub-node, an invalid sub-node, a sub-node
with a flow-node (non-add-on) instance, and another valid add-on sub-node. -/
def c7SubNodes : List EditorSubNodeTree :=
  [EditorSubNodeTree.node true
      (some { instId := 11, kind := InstanceKind.addOnKind, addOns := [] }) [],
   EditorSubNodeTree.node false
      (some { instId := 12, kind := InstanceKind.addOnKind, addOns := [] }) [],
   EditorSubNodeTree.node true
      (some { instId := 13, kind := InstanceKind.flowNodeKind, addOns := [] }) [],
   EditorSubNodeTree.node true
      (some { instId := 14, kind := InstanceKind.addOnKind, addOns := [] }) []]

/-- C7 witness: the mirror keeps exactly the two valid add-on instances, in order,
and logs the two skipped sub-nodes. -/
theorem C7_witness :
    (RebuildRuntimeAddOnsFromEditorSubNodes
        (EditorSubNodeTree.node true
          (some { instId := 1, kind := InstanceKind.flowNodeKind, addOns := [99] })
          c7SubNodes)).runtimeAddOns = [11, 14]
    ∧ (mirrorSubNodesToAddOns c7SubNodes).2 = 2 := by
  have h := C7_mirror_fidelity true
    { instId := 1, kind := InstanceKind.flowNodeKind, addOns := [99] } c7SubNodes
    (by decide)
  refine ⟨?_, ?_⟩
  · rw [h.1]
    decide
  · rw [h.2.2.2]
    decide

/-! ### Supporting lemmas for idempotence (Claim C1) -/

lemma tryUpdateAutoDataPins_stable (env : FlowEditorEnv) (g : GraphNodeState)
    (hstable : ∀ m, env.updateManagedPins m = m) :
    UFlowGraphNode.TryUpdateAutoDataPins env g = (false, g) := by
  unfold UFlowGraphNode.TryUpdateAutoDataPins
  split
  · split
    · simp [hstable]
    · rfl
  · rfl

lemma cleanInvalidPinsFlow_all_valid (l : List FFlowPin) :
    ∀ x ∈ CleanInvalidPinsFlow l, x.IsValid = true := by
  intro x hx
  have hperm := cleanBySwap_perm (fun p => !p.IsValid) l
  have hmem := hperm.mem_iff.mp hx
  rw [List.mem_filter] at hmem
  have := hmem.2
  simp only [Bool.not_not] at this
  exact this

lemma cleanInvalidPinsFlow_idem (l : List FFlowPin) :
    CleanInvalidPinsFlow (CleanInvalidPinsFlow l) = CleanInvalidPinsFlow l := by
  apply cleanBySwap_all_good
  intro x hx
  rw [cleanInvalidPinsFlow_all_valid l x hx]
  rfl

/-- The context-pin refresh trigger of `TryUpdateNodePins`, named for reuse. -/
def shouldRefreshContextPins (env : FlowEditorEnv) (gn : GraphNodeState) (n : UFlowNode) : Bool :=
  ((!(gn.hasOwnerGraph && env.isLoadingGraph)) || n.canRefreshContextPinsOnLoad) &&
      UFlowGraphNode.SupportsContextPins gn || gn.bNeedsFullReconstruction

lemma tryUpdateNodePins_noRefresh (env : FlowEditorEnv) (gn : GraphNodeState) (n : UFlowNode)
    (hni : gn.nodeInstance = some (FlowNodeInstance.flowNode n))
    (h : shouldRefreshContextPins env gn n = false) :
    UFlowGraphNode.TryUpdateNodePins env gn = (false, gn) := by
  have hexp : (((!(gn.hasOwnerGraph && env.isLoadingGraph)) || n.canRefreshContextPinsOnLoad) &&
      UFlowGraphNode.SupportsContextPins gn || gn.bNeedsFullReconstruction) = false := h
  unfold UFlowGraphNode.TryUpdateNodePins
  rw [hni]
  simp only [hexp]
  rfl

lemma tryUpdateNodePins_matched (env : FlowEditorEnv) (gn : GraphNodeState) (n : UFlowNode)
    (hni : gn.nodeInstance = some (FlowNodeInstance.flowNode n))
    (hin : CheckPinsMatch (CleanInvalidPinsFlow (env.cdoInputPins ++ env.contextInputs))
      (CleanInvalidPinsFlow n.inputPins) = true)
    (hout : CheckPinsMatch (CleanInvalidPinsFlow (env.cdoOutputPins ++ env.contextOutputs))
      (CleanInvalidPinsFlow n.outputPins) = true) :
    UFlowGraphNode.TryUpdateNodePins env gn = (false, gn) := by
  unfold UFlowGraphNode.TryUpdateNodePins
  rw [hni]
  simp only [hin, hout, Bool.not_true, Bool.false_eq_true, if_false, Bool.or_false]
  split
  · rfl
  · rw [← hni]

lemma tryUpdateNodePins_addOn (env : FlowEditorEnv) (gn : GraphNodeState) (a : Nat)
    (hni : gn.nodeInstance = some (FlowNodeInstance.addOn a)) :
    UFlowGraphNode.TryUpdateNodePins env gn = (true, gn) := by
  unfold UFlowGraphNode.TryUpdateNodePins
  rw [hni]

lemma allocateDefaultPins_not_flowNode (gn : GraphNodeState)
    (h : ∀ n, gn.nodeInstance ≠ some (FlowNodeInstance.flowNode n)) :
    UFlowGraphNode.AllocateDefaultPins gn = gn := by
  unfold UFlowGraphNode.AllocateDefaultPins
  cases hni : gn.nodeInstance with
  | none => rfl
  | some inst =>
    cases inst with
    | flowNode n => exact absurd hni (h n)
    | addOn a => rfl

lemma createInputPin_foldl_shape (l : List FFlowPin) :
    ∀ (g : GraphNodeState), ∃ ps is,
      l.foldl UFlowGraphNode.CreateInputPin g = { g with pins := ps, inputPins := is } := by
  induction l with
  | nil =>
    intro g
    exact ⟨g.pins, g.inputPins, rfl⟩
  | cons d rest ih =>
    intro g
    rw [List.foldl_cons]
    unfold UFlowGraphNode.CreateInputPin
    by_cases hd : d.pinName = none
    · rw [if_pos hd]
      exact ih g
    · rw [if_neg hd]
      rcases ih { g with
          pins := g.pins ++ [mkEdGraphPinFromFlowPin EGPDDirection.input d]
          inputPins := g.inputPins ++ [mkEdGraphPinFromFlowPin EGPDDirection.input d] }
        with ⟨ps, is, heq⟩
      exact ⟨ps, is, heq⟩

lemma createOutputPin_foldl_shape (l : List FFlowPin) :
    ∀ (g : GraphNodeState), ∃ ps os,
      l.foldl UFlowGraphNode.CreateOutputPin g = { g with pins := ps, outputPins := os } := by
  induction l with
  | nil =>
    intro g
    exact ⟨g.pins, g.outputPins, rfl⟩
  | cons d rest ih =>
    intro g
    rw [List.foldl_cons]
    unfold UFlowGraphNode.CreateOutputPin
    by_cases hd : d.pinName = none
    · rw [if_pos hd]
      exact ih g
    · rw [if_neg hd]
      rcases ih { g with
          pins := g.pins ++ [mkEdGraphPinFromFlowPin EGPDDirection.output d]
          outputPins := g.outputPins ++ [mkEdGraphPinFromFlowPin EGPDDirection.output d] }
        with ⟨ps, os, heq⟩
      exact ⟨ps, os, heq⟩

lemma allocateDefaultPins_flowNode (g : GraphNodeState) (n : UFlowNode)
    (hni : g.nodeInstance = some (FlowNodeInstance.flowNode n)) :
    UFlowGraphNode.AllocateDefaultPins g =
      n.outputPins.foldl UFlowGraphNode.CreateOutputPin
        (n.inputPins.foldl UFlowGraphNode.CreateInputPin g) := by
  unfold UFlowGraphNode.AllocateDefaultPins
  rw [hni]

lemma allocateDefaultPins_shape (g : GraphNodeState) :
    ∃ ps is os, UFlowGraphNode.AllocateDefaultPins g =
      { g with pins := ps, inputPins := is, outputPins := os } := by
  cases hni : g.nodeInstance with
  | none =>
    refine ⟨g.pins, g.inputPins, g.outputPins, ?_⟩
    rw [allocateDefaultPins_not_flowNode g (by rw [hni]; intro n h; exact Option.noConfusion h),
      ← hni]
  | some inst =>
    cases inst with
    | addOn a =>
      refine ⟨g.pins, g.inputPins, g.outputPins, ?_⟩
      rw [allocateDefaultPins_not_flowNode g (by rw [hni]; intro n h; simp at h), ← hni]
    | flowNode n =>
      rcases createInputPin_foldl_shape n.inputPins g with ⟨ps1, is1, heq1⟩
      rcases createOutputPin_foldl_shape n.outputPins
        { g with pins := ps1, inputPins := is1 } with ⟨ps2, os2, heq2⟩
      refine ⟨ps2, is1, os2, ?_⟩
      rw [allocateDefaultPins_flowNode g n hni, heq1, heq2, hni]

lemma appendOrphanedPin_eq_of_parent_none (g : GraphNodeState) (q : UEdGraphPin)
    (hq : q.parentPin = none) :
    appendOrphanedPin g q =
      { g with
        pins := g.pins ++ [q],
        inputPins :=
          if q.direction = EGPDDirection.input then g.inputPins ++ [q] else g.inputPins,
        outputPins :=
          if q.direction = EGPDDirection.output then g.outputPins ++ [q] else g.outputPins } := by
  unfold appendOrphanedPin
  rw [if_pos hq]

lemma appendOrphanedPin_eq_of_parent_some (g : GraphNodeState) (q : UEdGraphPin)
    (hq : ¬ q.parentPin = none) : appendOrphanedPin g q = g := by
  unfold appendOrphanedPin
  rw [if_neg hq]

lemma appendOrphan_fold_shape (l : List UEdGraphPin) :
    ∀ (g : GraphNodeState), ∃ ps is os,
      l.foldl appendOrphanedPin g = { g with pins := ps, inputPins := is, outputPins := os } := by
  induction l with
  | nil =>
    intro g
    exact ⟨g.pins, g.inputPins, g.outputPins, rfl⟩
  | cons q rest ih =>
    intro g
    rw [List.foldl_cons]
    by_cases hq : q.parentPin = none
    · rw [appendOrphanedPin_eq_of_parent_none g q hq]
      rcases ih { g with
        pins := g.pins ++ [q],
        inputPins :=
          if q.direction = EGPDDirection.input then g.inputPins ++ [q] else g.inputPins,
        outputPins :=
          if q.direction = EGPDDirection.output then g.outputPins ++ [q] else g.outputPins }
        with ⟨ps, is, os, heq⟩
      rw [heq]
      exact ⟨ps, is, os, rfl⟩
    · rw [appendOrphanedPin_eq_of_parent_some g q hq]
      exact ih g

lemma rewire_shape (env : FlowEditorEnv) (g : GraphNodeState) (old : List UEdGraphPin) :
    ∃ ps is os, (UFlowGraphNode.RewireOldPinsToNewPins env g old).1 =
      { g with pins := ps, inputPins := is, outputPins := os } := by
  unfold UFlowGraphNode.RewireOldPinsToNewPins
  simp only
  rcases appendOrphan_fold_shape
    ((rewireLoop env g g.pins.length
      { pins := g.pins, newPinMatched := List.replicate g.pins.length false, oldPins := old,
        orphanedOldPins := [], matchedPins := [] } old.length).orphanedOldPins.reverse)
    { g with pins := (rewireLoop env g g.pins.length
      { pins := g.pins, newPinMatched := List.replicate g.pins.length false, oldPins := old,
        orphanedOldPins := [], matchedPins := [] } old.length).pins }
    with ⟨ps, is, os, heq⟩
  rw [heq]
  exact ⟨ps, is, os, rfl⟩

/-- The pins `AllocateDefaultPins` produces for a flow node: one fresh graph pin per
valid input descriptor, then per valid output descriptor, in order. -/
def allocPinsOf (n : UFlowNode) : List UEdGraphPin :=
  (n.inputPins.filter FFlowPin.IsValid).map (mkEdGraphPinFromFlowPin EGPDDirection.input) ++
    (n.outputPins.filter FFlowPin.IsValid).map (mkEdGraphPinFromFlowPin EGPDDirection.output)

lemma fflowPin_invalid_iff_name_none (d : FFlowPin) : d.pinName = none ↔ d.IsValid = false := by
  unfold FFlowPin.IsValid
  cases hd : d.pinName <;> simp [hd]

lemma createInputPin_skip (g : GraphNodeState) (d : FFlowPin) (hd : d.pinName = none) :
    UFlowGraphNode.CreateInputPin g d = g := by
  unfold UFlowGraphNode.CreateInputPin
  rw [if_pos hd]

lemma createInputPin_app (g : GraphNodeState) (d : FFlowPin) (hd : ¬ d.pinName = none) :
    UFlowGraphNode.CreateInputPin g d =
      { g with
        pins := g.pins ++ [mkEdGraphPinFromFlowPin EGPDDirection.input d],
        inputPins := g.inputPins ++ [mkEdGraphPinFromFlowPin EGPDDirection.input d] } := by
  unfold UFlowGraphNode.CreateInputPin
  rw [if_neg hd]

lemma createOutputPin_skip (g : GraphNodeState) (d : FFlowPin) (hd : d.pinName = none) :
    UFlowGraphNode.CreateOutputPin g d = g := by
  unfold UFlowGraphNode.CreateOutputPin
  rw [if_pos hd]

lemma createOutputPin_app (g : GraphNodeState) (d : FFlowPin) (hd : ¬ d.pinName = none) :
    UFlowGraphNode.CreateOutputPin g d =
      { g with
        pins := g.pins ++ [mkEdGraphPinFromFlowPin EGPDDirection.output d],
        outputPins := g.outputPins ++ [mkEdGraphPinFromFlowPin EGPDDirection.output d] } := by
  unfold UFlowGraphNode.CreateOutputPin
  rw [if_neg hd]

lemma createInputPin_foldl_pins (l : List FFlowPin) :
    ∀ (g : GraphNodeState), (l.foldl UFlowGraphNode.CreateInputPin g).pins =
      g.pins ++ (l.filter FFlowPin.IsValid).map (mkEdGraphPinFromFlowPin EGPDDirection.input) := by
  induction l with
  | nil => intro g; simp
  | cons d rest ih =>
    intro g
    rw [List.foldl_cons, List.filter_cons]
    by_cases hd : d.pinName = none
    · rw [createInputPin_skip g d hd]
      have hv : d.IsValid = false := (fflowPin_invalid_iff_name_none d).mp hd
      rw [hv]
      simp only [Bool.false_eq_true, if_false]
      exact ih g
    · rw [createInputPin_app g d hd]
      have hval : d.IsValid = true := by
        cases hv : d.IsValid with
        | true => rfl
        | false => exact absurd ((fflowPin_invalid_iff_name_none d).mpr hv) hd
      rw [hval]
      simp only [if_true, List.map_cons]
      rw [ih]
      simp [List.append_assoc]

lemma createOutputPin_foldl_pins (l : List FFlowPin) :
    ∀ (g : GraphNodeState), (l.foldl UFlowGraphNode.CreateOutputPin g).pins =
      g.pins ++ (l.filter FFlowPin.IsValid).map (mkEdGraphPinFromFlowPin EGPDDirection.output) := by
  induction l with
  | nil => intro g; simp
  | cons d rest ih =>
    intro g
    rw [List.foldl_cons, List.filter_cons]
    by_cases hd : d.pinName = none
    · rw [createOutputPin_skip g d hd]
      have hv : d.IsValid = false := (fflowPin_invalid_iff_name_none d).mp hd
      rw [hv]
      simp only [Bool.false_eq_true, if_false]
      exact ih g
    · rw [createOutputPin_app g d hd]
      have hval : d.IsValid = true := by
        cases hv : d.IsValid with
        | true => rfl
        | false => exact absurd ((fflowPin_invalid_iff_name_none d).mpr hv) hd
      rw [hval]
      simp only [if_true, List.map_cons]
      rw [ih]
      simp [List.append_assoc]

lemma allocateDefaultPins_pins (g : GraphNodeState) (n : UFlowNode)
    (hni : g.nodeInstance = some (FlowNodeInstance.flowNode n)) :
    (UFlowGraphNode.AllocateDefaultPins g).pins = g.pins ++ allocPinsOf n := by
  rw [allocateDefaultPins_flowNode g n hni, createOutputPin_foldl_pins,
    createInputPin_foldl_pins, allocPinsOf, List.append_assoc]

lemma rewireLoop_orphans_flags (env : FlowEditorEnv) (gn : GraphNodeState) (k : Nat) :
    ∀ (fuel : Nat) (st : RewireState),
      (∀ q ∈ st.orphanedOldPins, q.bOrphanedPin = true ∧ q.bNotConnectable = true) →
      ∀ q ∈ (rewireLoop env gn k st fuel).orphanedOldPins,
        q.bOrphanedPin = true ∧ q.bNotConnectable = true := by
  intro fuel
  induction fuel with
  | zero => intro st h; exact h
  | succ f ih =>
    intro st h
    rw [rewireLoop]
    apply ih
    cases hold : st.oldPins[f]? with
    | none =>
      rw [rewireStep_none env gn k st f hold]
      exact h
    | some oldPin =>
      cases hfound : findMatchIndexAux st.pins st.newPinMatched oldPin.pinName
          (if k ≠ 0 then f % k else 0) k with
      | none =>
        cases hcond : orphanPinRetentionCondition env gn oldPin with
        | false =>
          rw [rewireStep_nomatch_nocond env gn k st f oldPin hold hfound hcond]
          exact h
        | true =>
          rw [rewireStep_nomatch_orphan env gn k st f oldPin hold hfound hcond]
          intro q hq
          rw [List.mem_append] at hq
          cases hq with
          | inl hql => exact h q hql
          | inr hqr =>
            rw [List.mem_singleton] at hqr
            subst hqr
            exact ⟨rfl, rfl⟩
      | some j =>
        rcases findMatchIndexAux_spec st.pins st.newPinMatched oldPin.pinName k _ j hfound
          with ⟨_, hjn⟩
        cases hpj : st.pins[j]? with
        | none =>
          rw [hpj] at hjn
          exact Option.noConfusion hjn
        | some newPin =>
          rw [rewireStep_match env gn k st f oldPin newPin j hold hfound hpj]
          exact h

/-- The starting state of the rewiring loop inside `RewireOldPinsToNewPins`. -/
def rewireInitState (g : GraphNodeState) (old : List UEdGraphPin) : RewireState :=
  { pins := g.pins
    newPinMatched := List.replicate g.pins.length false
    oldPins := old
    orphanedOldPins := []
    matchedPins := [] }

lemma rewire_snd (env : FlowEditorEnv) (g : GraphNodeState) (old : List UEdGraphPin) :
    (UFlowGraphNode.RewireOldPinsToNewPins env g old).2 =
      rewireLoop env g g.pins.length (rewireInitState g old) old.length := rfl

lemma rewire_pins_decomp (env : FlowEditorEnv) (g : GraphNodeState) (old : List UEdGraphPin) :
    (UFlowGraphNode.RewireOldPinsToNewPins env g old).1.pins =
      (rewireLoop env g g.pins.length (rewireInitState g old) old.length).pins ++
        ((rewireLoop env g g.pins.length (rewireInitState g old)
          old.length).orphanedOldPins.reverse).filter (fun q => q.parentPin.isNone) := by
  unfold UFlowGraphNode.RewireOldPinsToNewPins
  simp only
  rw [appendOrphan_fold_pins]
  rfl

lemma checkGraphPinsMatchNodePins_flowNode (g : GraphNodeState) (n : UFlowNode)
    (hni : g.nodeInstance = some (FlowNodeInstance.flowNode n)) :
    UFlowGraphNode.CheckGraphPinsMatchNodePins g =
      CheckPinsMatchGraph (CleanInvalidPinsGraph g.pins)
        (CleanInvalidPinsFlow (n.inputPins ++ n.outputPins)) := by
  unfold UFlowGraphNode.CheckGraphPinsMatchNodePins
  rw [hni]

lemma filter_isValid_simp (l : List FFlowPin) :
    l.filter (fun x => !(!x.IsValid)) = l.filter FFlowPin.IsValid := by
  apply List.filter_congr
  intro x _
  rw [Bool.not_not]

lemma allocPins_names (n : UFlowNode) :
    (allocPinsOf n).map UEdGraphPin.pinName =
      ((n.inputPins ++ n.outputPins).filter FFlowPin.IsValid).map FFlowPin.pinName := by
  unfold allocPinsOf
  rw [List.map_append, List.map_map, List.map_map, List.filter_append, List.map_append]
  rfl

lemma allocPins_orph (n : UFlowNode) : ∀ q ∈ allocPinsOf n, q.bOrphanedPin = false := by
  intro q hq
  unfold allocPinsOf at hq
  rw [List.mem_append, List.mem_map, List.mem_map] at hq
  rcases hq with ⟨d, _, he⟩ | ⟨d, _, he⟩ <;> rw [← he] <;> rfl

lemma sig_transfer_orph {l l' : List UEdGraphPin} (h : l.map pinSig = l'.map pinSig)
    (hall : ∀ q ∈ l', q.bOrphanedPin = false) : ∀ q ∈ l, q.bOrphanedPin = false := by
  intro q hq
  have hmem : pinSig q ∈ l'.map pinSig := by
    rw [← h]
    exact List.mem_map_of_mem pinSig hq
  rcases List.mem_map.mp hmem with ⟨q', hq', he⟩
  have hsnd := congrArg Prod.snd he
  unfold pinSig at hsnd
  simp only at hsnd
  rw [← hsnd]
  exact hall q' hq'

/-- After a full rebuild (allocate from the flow node's stored descriptors, rewire the
old pins), the graph node's orphan-stripped pins match the node's cleaned stored
descriptors, so `CheckGraphPinsMatchNodePins` holds. -/
lemma checkGraph_after_rebuild (env : FlowEditorEnv) (g5 : GraphNodeState) (nf : UFlowNode)
    (old : List UEdGraphPin)
    (hni : g5.nodeInstance = some (FlowNodeInstance.flowNode nf))
    (hpins : g5.pins = allocPinsOf nf) :
    UFlowGraphNode.CheckGraphPinsMatchNodePins
      ((UFlowGraphNode.RewireOldPinsToNewPins env g5 old).1) = true := by
  rcases rewire_shape env g5 old with ⟨ps, is, os, hshape⟩
  have hnires : (UFlowGraphNode.RewireOldPinsToNewPins env g5 old).1.nodeInstance =
      some (FlowNodeInstance.flowNode nf) := by
    rw [hshape]
    exact hni
  rw [checkGraphPinsMatchNodePins_flowNode _ nf hnires]
  set stF := rewireLoop env g5 g5.pins.length (rewireInitState g5 old) old.length with hstF
  have hdecomp := rewire_pins_decomp env g5 old
  rw [← hstF] at hdecomp
  -- the loop preserves the pin signature; freshly allocated pins are never orphaned
  have hsig : stF.pins.map pinSig = g5.pins.map pinSig := by
    rw [hstF]
    exact rewireLoop_pins_sig env g5 g5.pins.length old.length (rewireInitState g5 old)
  have horphF : ∀ q ∈ stF.pins, q.bOrphanedPin = false := by
    apply sig_transfer_orph hsig
    rw [hpins]
    exact allocPins_orph nf
  have hflagged : ∀ q ∈ stF.orphanedOldPins, q.bOrphanedPin = true := by
    intro q hq
    exact ((rewireLoop_orphans_flags env g5 g5.pins.length old.length (rewireInitState g5 old)
      (by intro q hq2; exact absurd hq2 (List.not_mem_nil q))) q (by rw [← hstF] at *; exact hq)).1
  -- the orphan-stripped graph pins are a permutation of the rewired allocation
  have hperm1 : (CleanInvalidPinsGraph ((UFlowGraphNode.RewireOldPinsToNewPins env g5
      old).1.pins)).Perm stF.pins := by
    have hp := cleanBySwap_perm (fun p => p.bOrphanedPin)
      ((UFlowGraphNode.RewireOldPinsToNewPins env g5 old).1.pins)
    have hleft : (stF.pins.filter (fun p => !p.bOrphanedPin)) = stF.pins := by
      apply List.filter_eq_self.mpr
      intro q hq
      rw [horphF q hq]
      rfl
    have hright : ((stF.orphanedOldPins.reverse.filter
        (fun q => q.parentPin.isNone)).filter (fun p => !p.bOrphanedPin)) = [] := by
      apply List.filter_eq_nil_iff.mpr
      intro q hq
      rw [List.mem_filter, List.mem_reverse] at hq
      rw [hflagged q hq.1]
      simp
    have hfil : ((UFlowGraphNode.RewireOldPinsToNewPins env g5 old).1.pins).filter
        (fun p => !p.bOrphanedPin) = stF.pins := by
      rw [hdecomp, List.filter_append, hleft, hright, List.append_nil]
    rw [hfil] at hp
    exact hp
  have hperm2 : (CleanInvalidPinsFlow (nf.inputPins ++ nf.outputPins)).Perm
      ((nf.inputPins ++ nf.outputPins).filter FFlowPin.IsValid) := by
    have hp := cleanBySwap_perm (fun p => !p.IsValid) (nf.inputPins ++ nf.outputPins)
    rwa [filter_isValid_simp] at hp
  rw [checkPinsMatchGraph_perm_congr hperm1 hperm2]
  -- names of the rewired allocation coincide with the valid descriptor names
  have hnames : stF.pins.map UEdGraphPin.pinName =
      ((nf.inputPins ++ nf.outputPins).filter FFlowPin.IsValid).map FFlowPin.pinName := by
    rw [name_map_eq_of_sig_eq hsig, hpins]
    exact allocPins_names nf
  rw [checkPinsMatchGraph_eq_true_iff]
  constructor
  · have h1 := congrArg List.length hnames
    rwa [List.length_map, List.length_map] at h1
  · intro np hnp
    have hnpname : np.pinName ∈ stF.pins.map UEdGraphPin.pinName := by
      rw [hnames, List.mem_map]
      exact ⟨np, hnp, rfl⟩
    rcases List.mem_map.mp hnpname with ⟨gp, hgp, he⟩
    exact ⟨gp, hgp, he⟩

lemma flag_self (p : UEdGraphPin) (h1 : p.bOrphanedPin = true) (h2 : p.bNotConnectable = true) :
    { p with bOrphanedPin := true, bNotConnectable := true } = p := by
  cases p
  simp_all

lemma eraseIdx_take_succ {α : Type} (old : List α) (i : Nat) :
    (old.take (i + 1)).eraseIdx i = old.take i := by
  have hmin : min i (i + 1) = i := by omega
  rw [List.eraseIdx_eq_take_drop_succ, List.take_take, hmin,
    List.drop_eq_nil_of_le (by rw [List.length_take]; omega), List.append_nil]

lemma orphanCondition_congr (env : FlowEditorEnv) {g g' : GraphNodeState}
    (h1 : g.bDisableOrphanPinSaving = g'.bDisableOrphanPinSaving)
    (h2 : g.orphanedPinSaveMode = g'.orphanedPinSaveMode) (q : UEdGraphPin) :
    orphanPinRetentionCondition env g q = orphanPinRetentionCondition env g' q := by
  unfold orphanPinRetentionCondition
  rw [h1, h2]

/-- With no new pins at all, a list of already-flagged, condition-satisfying old pins
is orphan-collected wholesale, in order. -/
lemma rewireLoop_allStable (env : FlowEditorEnv) (gnArg : GraphNodeState)
    (old : List UEdGraphPin)
    (hstable : ∀ q ∈ old, orphanPinRetentionCondition env gnArg q = true ∧
      q.bOrphanedPin = true ∧ q.bNotConnectable = true) :
    ∀ (i : Nat), i ≤ old.length →
      ∀ (acc : List UEdGraphPin) (mp : List (UEdGraphPin × UEdGraphPin)) (matched : List Bool),
      rewireLoop env gnArg 0
        { pins := [], newPinMatched := matched, oldPins := old.take i,
          orphanedOldPins := acc, matchedPins := mp } i =
      { pins := [], newPinMatched := matched, oldPins := [],
        orphanedOldPins := acc ++ (old.take i).reverse, matchedPins := mp } := by
  intro i
  induction i with
  | zero =>
    intro _ acc mp matched
    rw [rewireLoop]
    simp
  | succ ii ih =>
    intro hle acc mp matched
    have hii : ii < old.length := by omega
    have hgetold : old[ii]? = some old[ii] :=
      List.getElem?_eq_some.mpr ⟨hii, rfl⟩
    have hget : (old.take (ii + 1))[ii]? = some old[ii] := by
      rw [List.getElem?_take, if_pos (by omega)]
      exact hgetold
    have hmem : old[ii] ∈ old := List.getElem?_mem hgetold
    rcases hstable old[ii] hmem with ⟨hcond, hflag1, hflag2⟩
    rw [rewireLoop]
    rw [rewireStep_nomatch_orphan env gnArg 0
      { pins := [], newPinMatched := matched, oldPins := old.take (ii + 1),
        orphanedOldPins := acc, matchedPins := mp } ii old[ii] hget rfl hcond]
    simp only
    rw [eraseIdx_take_succ, flag_self old[ii] hflag1 hflag2]
    rw [ih (by omega) (acc ++ [old[ii]]) mp matched]
    have htake : old.take (ii + 1) = old.take ii ++ [old[ii]] := by
      rw [List.take_succ, hgetold]
      rfl
    rw [htake, List.reverse_append]
    simp [List.append_assoc]

/-- A rebuild with an empty allocation applied to an all-stable orphan pin list (the
repeated-rebuild case for nodes whose instance allocates no pins) reproduces the pins
unchanged. -/
lemma rewire_allStable (env : FlowEditorEnv) (gnArg : GraphNodeState)
    (old : List UEdGraphPin)
    (hpins : gnArg.pins = [])
    (hstable : ∀ q ∈ old, orphanPinRetentionCondition env gnArg q = true ∧
      q.bOrphanedPin = true ∧ q.bNotConnectable = true)
    (hparent : ∀ q ∈ old, q.parentPin = none) :
    (UFlowGraphNode.RewireOldPinsToNewPins env gnArg old).1.pins = old := by
  have hinit : rewireInitState gnArg old =
      { pins := [], newPinMatched := [], oldPins := old,
        orphanedOldPins := [], matchedPins := [] } := by
    unfold rewireInitState
    rw [hpins]
    rfl
  have hlen0 : gnArg.pins.length = 0 := by rw [hpins]; rfl
  have hloop := rewireLoop_allStable env gnArg old hstable old.length (le_refl _) [] [] []
  rw [List.take_length] at hloop
  rw [rewire_pins_decomp, hinit, hlen0, hloop]
  simp only [List.nil_append, List.reverse_reverse]
  apply List.filter_eq_self.mpr
  intro q hq
  rw [Option.isNone_iff_eq_none]
  exact hparent q hq

lemma supportsContextPins_of_flowNode (g : GraphNodeState) (n : UFlowNode)
    (hni : g.nodeInstance = some (FlowNodeInstance.flowNode n)) :
    UFlowGraphNode.SupportsContextPins g = n.supportsContextPins := by
  unfold UFlowGraphNode.SupportsContextPins
  rw [hni]

lemma tryUpdateNodePins_refresh (env : FlowEditorEnv) (gn : GraphNodeState) (n : UFlowNode)
    (hni : gn.nodeInstance = some (FlowNodeInstance.flowNode n))
    (h : shouldRefreshContextPins env gn n = true) :
    UFlowGraphNode.TryUpdateNodePins env gn =
      (let rIn := CleanInvalidPinsFlow (env.cdoInputPins ++ env.contextInputs)
       let rOut := CleanInvalidPinsFlow (env.cdoOutputPins ++ env.contextOutputs)
       let inMis := !CheckPinsMatch rIn (CleanInvalidPinsFlow n.inputPins)
       let n1 := if inMis then { n with inputPins := rIn } else n
       let outMis := !CheckPinsMatch rOut (CleanInvalidPinsFlow n.outputPins)
       let n2 := if outMis then { n1 with outputPins := rOut } else n1
       (inMis || outMis, { gn with nodeInstance := some (FlowNodeInstance.flowNode n2) })) := by
  have hexp : (((!(gn.hasOwnerGraph && env.isLoadingGraph)) || n.canRefreshContextPinsOnLoad) &&
      UFlowGraphNode.SupportsContextPins gn || gn.bNeedsFullReconstruction) = true := h
  unfold UFlowGraphNode.TryUpdateNodePins
  rw [hni]
  simp only [hexp, Bool.not_true, Bool.false_eq_true, if_false]

lemma tryUpdateNodePins_post (env : FlowEditorEnv) (gn : GraphNodeState) (n : UFlowNode)
    (hni : gn.nodeInstance = some (FlowNodeInstance.flowNode n))
    (h : shouldRefreshContextPins env gn n = true) :
    ∃ b2 n2, UFlowGraphNode.TryUpdateNodePins env gn =
        (b2, { gn with nodeInstance := some (FlowNodeInstance.flowNode n2) }) ∧
      n2.supportsContextPins = n.supportsContextPins ∧
      n2.canRefreshContextPinsOnLoad = n.canRefreshContextPinsOnLoad ∧
      CheckPinsMatch (CleanInvalidPinsFlow (env.cdoInputPins ++ env.contextInputs))
        (CleanInvalidPinsFlow n2.inputPins) = true ∧
      CheckPinsMatch (CleanInvalidPinsFlow (env.cdoOutputPins ++ env.contextOutputs))
        (CleanInvalidPinsFlow n2.outputPins) = true := by
  rw [tryUpdateNodePins_refresh env gn n hni h]
  simp only
  set rIn := CleanInvalidPinsFlow (env.cdoInputPins ++ env.contextInputs) with hrIn
  set rOut := CleanInvalidPinsFlow (env.cdoOutputPins ++ env.contextOutputs) with hrOut
  have hrInClean : CleanInvalidPinsFlow rIn = rIn := cleanInvalidPinsFlow_idem _
  have hrOutClean : CleanInvalidPinsFlow rOut = rOut := cleanInvalidPinsFlow_idem _
  cases hinm : CheckPinsMatch rIn (CleanInvalidPinsFlow n.inputPins) with
  | true =>
    cases houtm : CheckPinsMatch rOut (CleanInvalidPinsFlow n.outputPins) with
    | true =>
      refine ⟨false, n, ?_, rfl, rfl, hinm, houtm⟩
      simp
    | false =>
      refine ⟨true, { n with outputPins := rOut }, ?_, rfl, rfl, ?_, ?_⟩
      · simp
      · show CheckPinsMatch rIn (CleanInvalidPinsFlow n.inputPins) = true
        exact hinm
      · show CheckPinsMatch rOut (CleanInvalidPinsFlow rOut) = true
        rw [hrOutClean]
        exact checkPinsMatch_refl rOut
  | false =>
    cases houtm : CheckPinsMatch rOut (CleanInvalidPinsFlow n.outputPins) with
    | true =>
      refine ⟨true, { n with inputPins := rIn }, ?_, rfl, rfl, ?_, ?_⟩
      · simp
      · show CheckPinsMatch rIn (CleanInvalidPinsFlow rIn) = true
        rw [hrInClean]
        exact checkPinsMatch_refl rIn
      · show CheckPinsMatch rOut (CleanInvalidPinsFlow n.outputPins) = true
        exact houtm
    | false =>
      refine ⟨true, { { n with inputPins := rIn } with outputPins := rOut }, ?_, rfl, rfl, ?_, ?_⟩
      · simp
      · show CheckPinsMatch rIn (CleanInvalidPinsFlow rIn) = true
        rw [hrInClean]
        exact checkPinsMatch_refl rIn
      · show CheckPinsMatch rOut (CleanInvalidPinsFlow rOut) = true
        rw [hrOutClean]
        exact checkPinsMatch_refl rOut

lemma tryUpdateNodePins_false (env : FlowEditorEnv) (gn : GraphNodeState)
    (h : (UFlowGraphNode.TryUpdateNodePins env gn).1 = false) :
    UFlowGraphNode.TryUpdateNodePins env gn = (false, gn) := by
  cases hni : gn.nodeInstance with
  | none =>
    have : UFlowGraphNode.TryUpdateNodePins env gn = (true, gn) := by
      unfold UFlowGraphNode.TryUpdateNodePins
      rw [hni]
    rw [this] at h
    exact absurd h (by simp)
  | some inst =>
    cases inst with
    | addOn a =>
      rw [tryUpdateNodePins_addOn env gn a hni] at h
      exact absurd h (by simp)
    | flowNode n =>
      by_cases hr : shouldRefreshContextPins env gn n = true
      · rcases tryUpdateNodePins_post env gn n hni hr with ⟨b2, n2, heq, _, _, _, _⟩
        rw [heq] at h ⊢
        simp only at h
        subst h
        rw [tryUpdateNodePins_refresh env gn n hni hr] at heq
        simp only at heq
        -- with both mismatches false, n2 is literally n
        cases hinm : CheckPinsMatch (CleanInvalidPinsFlow (env.cdoInputPins ++ env.contextInputs))
            (CleanInvalidPinsFlow n.inputPins) with
        | false =>
          rw [hinm] at heq
          simp at heq
        | true =>
          cases houtm : CheckPinsMatch (CleanInvalidPinsFlow (env.cdoOutputPins ++ env.contextOutputs))
              (CleanInvalidPinsFlow n.outputPins) with
          | false =>
            rw [hinm, houtm] at heq
            simp at heq
          | true =>
            rw [hinm, houtm] at heq
            simp only [Bool.not_true, Bool.false_eq_true, if_false, Bool.or_false] at heq
            have hn2 : n2 = n := by
              have h2 := congrArg (fun pr => (Prod.snd pr).nodeInstance) heq
              simp only at h2
              have h3 : FlowNodeInstance.flowNode n = FlowNodeInstance.flowNode n2 := by
                injection h2
              injection h3 with h4
              exact h4.symm
            rw [hn2, ← hni]
      · have hrf : shouldRefreshContextPins env gn n = false := by
          cases hb : shouldRefreshContextPins env gn n with
          | true => exact absurd hb hr
          | false => rfl
        exact tryUpdateNodePins_noRefresh env gn n hni hrf

lemma reconstructNode_guard_false_eq (env : FlowEditorEnv) (gn : GraphNodeState)
    (h : UFlowGraphNode.CanReconstructNode env gn = false) :
    UFlowGraphNode.ReconstructNode env gn =
      { state := gn, completedEvents := 0, destroyedPins := [] } := by
  unfold UFlowGraphNode.ReconstructNode
  rw [h]
  rfl

lemma reconstructNode_pipeline (env : FlowEditorEnv) (gn : GraphNodeState)
    (hcan : UFlowGraphNode.CanReconstructNode env gn = true) :
    UFlowGraphNode.ReconstructNode env gn =
      (let gn1 := { gn with bIsReconstructingNode := true }
       let auto := UFlowGraphNode.TryUpdateAutoDataPins env gn1
       let nodeUpd := UFlowGraphNode.TryUpdateNodePins env auto.2
       let gn3 := nodeUpd.2
       if gn3.bNeedsFullReconstruction || auto.1 || nodeUpd.1 ||
           !UFlowGraphNode.CheckGraphPinsMatchNodePins gn3 then
         let gn5 := UFlowGraphNode.AllocateDefaultPins
           { gn3 with pins := [], inputPins := [], outputPins := [] }
         let rew := UFlowGraphNode.RewireOldPinsToNewPins env gn5 gn3.pins
         { state :=
             { rew.1 with bNeedsFullReconstruction := false, bIsReconstructingNode := false }
           completedEvents := 1
           destroyedPins := rew.2.oldPins.map UEdGraphPin.BreakAllPinLinks }
       else
         { state := { gn3 with bIsReconstructingNode := false }
           completedEvents := 1
           destroyedPins := [] }) := by
  unfold UFlowGraphNode.ReconstructNode
  rw [hcan]
  rfl

lemma reconstructNode_noRebuild (env : FlowEditorEnv) (gn : GraphNodeState)
    (hcan : UFlowGraphNode.CanReconstructNode env gn = true)
    (hauto : UFlowGraphNode.TryUpdateAutoDataPins env { gn with bIsReconstructingNode := true } =
      (false, { gn with bIsReconstructingNode := true }))
    (hupd : UFlowGraphNode.TryUpdateNodePins env { gn with bIsReconstructingNode := true } =
      (false, { gn with bIsReconstructingNode := true }))
    (hmatch : UFlowGraphNode.CheckGraphPinsMatchNodePins
      { gn with bIsReconstructingNode := true } = true)
    (hnf : gn.bNeedsFullReconstruction = false)
    (hrec : gn.bIsReconstructingNode = false) :
    UFlowGraphNode.ReconstructNode env gn =
      { state := gn, completedEvents := 1, destroyedPins := [] } := by
  rw [reconstructNode_pipeline env gn hcan]
  dsimp only
  rw [hauto, hupd, hmatch, hnf]
  simp only [Bool.or_false, Bool.false_or, Bool.not_true, Bool.false_eq_true, if_false]
  rcases gn with ⟨p, ip, op, ni, ho, r, d, nf2, dop, om, sb, pr⟩
  have hr : r = false := hrec
  subst hr
  have hn2 : nf2 = false := hnf
  subst hn2
  dsimp only

lemma reconstructNode_rebuild (env : FlowEditorEnv) (gn : GraphNodeState)
    (b2 : Bool) (g3 : GraphNodeState)
    (hcan : UFlowGraphNode.CanReconstructNode env gn = true)
    (hauto : UFlowGraphNode.TryUpdateAutoDataPins env { gn with bIsReconstructingNode := true } =
      (false, { gn with bIsReconstructingNode := true }))
    (hupd : UFlowGraphNode.TryUpdateNodePins env { gn with bIsReconstructingNode := true } =
      (b2, g3))
    (hreq : (g3.bNeedsFullReconstruction || b2 ||
      !UFlowGraphNode.CheckGraphPinsMatchNodePins g3) = true) :
    UFlowGraphNode.ReconstructNode env gn =
      (let gn5 := UFlowGraphNode.AllocateDefaultPins
         { g3 with pins := [], inputPins := [], outputPins := [] }
       let rew := UFlowGraphNode.RewireOldPinsToNewPins env gn5 g3.pins
       { state :=
           { rew.1 with bNeedsFullReconstruction := false, bIsReconstructingNode := false }
         completedEvents := 1
         destroyedPins := rew.2.oldPins.map UEdGraphPin.BreakAllPinLinks }) := by
  rw [reconstructNode_pipeline env gn hcan]
  simp only [hauto, hupd, Bool.or_false, Bool.false_or]
  rw [hreq]
  rfl

lemma bool_or_false_split {a b : Bool} (h : (a || b) = false) : a = false ∧ b = false := by
  cases a <;> cases b <;> simp_all

lemma checkGraphPinsMatchNodePins_congr {g u : GraphNodeState}
    (h1 : g.nodeInstance = u.nodeInstance) (h2 : g.pins = u.pins) :
    UFlowGraphNode.CheckGraphPinsMatchNodePins g =
      UFlowGraphNode.CheckGraphPinsMatchNodePins u := by
  unfold UFlowGraphNode.CheckGraphPinsMatchNodePins
  rw [h1, h2]

lemma not_flowNode_of_addOn {g : GraphNodeState} {a : Nat}
    (hni : g.nodeInstance = some (FlowNodeInstance.addOn a)) :
    ∀ n, g.nodeInstance ≠ some (FlowNodeInstance.flowNode n) := by
  intro n h
  rw [hni] at h
  simp at h

/-- The node state produced by the rebuild branch of `ReconstructNode`: snapshot the
pins, reallocate from the instance descriptors, rewire the old pins, clear the
pending-full and re-entrancy flags. -/
def rebuildState (env : FlowEditorEnv) (g3 : GraphNodeState) : GraphNodeState :=
  let gn5 := UFlowGraphNode.AllocateDefaultPins
    { g3 with pins := [], inputPins := [], outputPins := [] }
  let rew := UFlowGraphNode.RewireOldPinsToNewPins env gn5 g3.pins
  { rew.1 with bNeedsFullReconstruction := false, bIsReconstructingNode := false }

lemma reconstructNode_rebuild_state (env : FlowEditorEnv) (gn : GraphNodeState)
    (b2 : Bool) (g3 : GraphNodeState)
    (hcan : UFlowGraphNode.CanReconstructNode env gn = true)
    (hauto : UFlowGraphNode.TryUpdateAutoDataPins env { gn with bIsReconstructingNode := true } =
      (false, { gn with bIsReconstructingNode := true }))
    (hupd : UFlowGraphNode.TryUpdateNodePins env { gn with bIsReconstructingNode := true } =
      (b2, g3))
    (hreq : (g3.bNeedsFullReconstruction || b2 ||
      !UFlowGraphNode.CheckGraphPinsMatchNodePins g3) = true) :
    (UFlowGraphNode.ReconstructNode env gn).state = rebuildState env g3 := by
  rw [reconstructNode_rebuild env gn b2 g3 hcan hauto hupd hreq]
  rfl

lemma rebuildState_shape (env : FlowEditorEnv) (g3 : GraphNodeState) :
    ∃ ps is os, rebuildState env g3 =
      { g3 with
        pins := ps
        inputPins := is
        outputPins := os
        bNeedsFullReconstruction := false
        bIsReconstructingNode := false } := by
  unfold rebuildState
  dsimp only
  rcases rewire_shape env
    (UFlowGraphNode.AllocateDefaultPins { g3 with pins := [], inputPins := [], outputPins := [] })
    g3.pins with ⟨p2, i2, o2, h2⟩
  rcases allocateDefaultPins_shape
    { g3 with pins := ([] : List UEdGraphPin), inputPins := [], outputPins := [] }
    with ⟨p1, i1, o1, h1⟩
  refine ⟨p2, i2, o2, ?_⟩
  rw [h2, h1]

lemma rebuildState_check (env : FlowEditorEnv) (g3 : GraphNodeState) (n2 : UFlowNode)
    (hni : g3.nodeInstance = some (FlowNodeInstance.flowNode n2)) :
    UFlowGraphNode.CheckGraphPinsMatchNodePins (rebuildState env g3) = true := by
  unfold rebuildState
  dsimp only
  have hni4 : ({ g3 with pins := ([] : List UEdGraphPin), inputPins := [], outputPins := [] } :
      GraphNodeState).nodeInstance = some (FlowNodeInstance.flowNode n2) := hni
  have hpins5 : (UFlowGraphNode.AllocateDefaultPins
      { g3 with pins := ([] : List UEdGraphPin), inputPins := [], outputPins := [] }).pins =
      allocPinsOf n2 := by
    rw [allocateDefaultPins_pins _ n2 hni4]
    rfl
  have hni5 : (UFlowGraphNode.AllocateDefaultPins
      { g3 with pins := ([] : List UEdGraphPin), inputPins := [], outputPins := [] }).nodeInstance =
      some (FlowNodeInstance.flowNode n2) := by
    rcases allocateDefaultPins_shape
      { g3 with pins := ([] : List UEdGraphPin), inputPins := [], outputPins := [] }
      with ⟨ps, is, os, hsh⟩
    rw [hsh]
    exact hni4
  have hch := checkGraph_after_rebuild env
    (UFlowGraphNode.AllocateDefaultPins
      { g3 with pins := ([] : List UEdGraphPin), inputPins := [], outputPins := [] })
    n2 g3.pins hni5 hpins5
  exact (checkGraphPinsMatchNodePins_congr
    (g := { (UFlowGraphNode.RewireOldPinsToNewPins env
        (UFlowGraphNode.AllocateDefaultPins
          { g3 with pins := ([] : List UEdGraphPin), inputPins := [], outputPins := [] })
        g3.pins).1 with
      bNeedsFullReconstruction := false
      bIsReconstructingNode := false })
    (u := (UFlowGraphNode.RewireOldPinsToNewPins env
      (UFlowGraphNode.AllocateDefaultPins
        { g3 with pins := ([] : List UEdGraphPin), inputPins := [], outputPins := [] })
      g3.pins).1) rfl rfl).trans hch

lemma reconstructNode_fixpoint (env : FlowEditorEnv) (s : GraphNodeState)
    (hstable : ∀ m, env.updateManagedPins m = m)
    (hcan : UFlowGraphNode.CanReconstructNode env s = true)
    (hnf : s.bNeedsFullReconstruction = false)
    (hupd : UFlowGraphNode.TryUpdateNodePins env { s with bIsReconstructingNode := true } =
      (false, { s with bIsReconstructingNode := true }))
    (hmatch : UFlowGraphNode.CheckGraphPinsMatchNodePins s = true) :
    UFlowGraphNode.ReconstructNode env s =
      { state := s, completedEvents := 1, destroyedPins := [] } := by
  obtain ⟨_, hrec, _, _, _, _, _⟩ := (canReconstructNode_eq_true_iff env s).mp hcan
  have hauto := tryUpdateAutoDataPins_stable env { s with bIsReconstructingNode := true } hstable
  have hmatch' : UFlowGraphNode.CheckGraphPinsMatchNodePins
      { s with bIsReconstructingNode := true } = true :=
    (checkGraphPinsMatchNodePins_congr (g := { s with bIsReconstructingNode := true })
      (u := s) rfl rfl).trans hmatch
  exact reconstructNode_noRebuild env s hcan hauto hupd hmatch' hnf hrec

lemma rebuildState_addOn_allStable (env : FlowEditorEnv) (g3 : GraphNodeState) (a : Nat)
    (hni : g3.nodeInstance = some (FlowNodeInstance.addOn a)) :
    ∀ q ∈ (rebuildState env g3).pins,
      orphanPinRetentionCondition env
        { g3 with pins := ([] : List UEdGraphPin), inputPins := [], outputPins := [] } q = true ∧
      q.bOrphanedPin = true ∧ q.bNotConnectable = true ∧ q.parentPin = none := by
  unfold rebuildState
  dsimp only
  set g4 : GraphNodeState :=
    { g3 with pins := ([] : List UEdGraphPin), inputPins := [], outputPins := [] } with hg4
  have hni4 : g4.nodeInstance = some (FlowNodeInstance.addOn a) := hni
  have halloc : UFlowGraphNode.AllocateDefaultPins g4 = g4 :=
    allocateDefaultPins_not_flowNode g4 (not_flowNode_of_addOn hni4)
  rw [halloc, rewire_pins_decomp]
  have hg4pins : g4.pins = [] := by rw [hg4]
  have hloopnil : (rewireLoop env g4 g4.pins.length (rewireInitState g4 g3.pins)
      g3.pins.length).pins = [] := by
    have hs := rewireLoop_pins_sig env g4 g4.pins.length g3.pins.length
      (rewireInitState g4 g3.pins)
    have hinit : (rewireInitState g4 g3.pins).pins = g4.pins := rfl
    rw [hinit, hg4pins, List.map_nil] at hs
    cases hl : (rewireLoop env g4 g4.pins.length (rewireInitState g4 g3.pins)
        g3.pins.length).pins with
    | nil => rfl
    | cons x xs =>
      rw [hl] at hs
      simp at hs
  rw [hloopnil, List.nil_append]
  intro q hq
  rw [List.mem_filter] at hq
  rcases hq with ⟨hq1, hq2⟩
  rw [List.mem_reverse] at hq1
  have hinitorph : ∀ p ∈ (rewireInitState g4 g3.pins).orphanedOldPins, False := by
    intro p hp
    simp [rewireInitState] at hp
  refine ⟨?_, ?_, ?_, ?_⟩
  · exact rewireLoop_orphans_cond env g4 g4.pins.length g3.pins.length
      (rewireInitState g4 g3.pins) (fun p hp => (hinitorph p hp).elim) q hq1
  · exact (rewireLoop_orphans_flags env g4 g4.pins.length g3.pins.length
      (rewireInitState g4 g3.pins) (fun p hp => (hinitorph p hp).elim) q hq1).1
  · exact (rewireLoop_orphans_flags env g4 g4.pins.length g3.pins.length
      (rewireInitState g4 g3.pins) (fun p hp => (hinitorph p hp).elim) q hq1).2
  · exact Option.isNone_iff_eq_none.mp hq2

lemma rebuildState_addOn_stable (env : FlowEditorEnv) (g : GraphNodeState) (a : Nat)
    (hni : g.nodeInstance = some (FlowNodeInstance.addOn a))
    (hall : ∀ q ∈ g.pins,
      orphanPinRetentionCondition env
        { g with pins := ([] : List UEdGraphPin), inputPins := [], outputPins := [] } q = true ∧
      q.bOrphanedPin = true ∧ q.bNotConnectable = true ∧ q.parentPin = none) :
    (rebuildState env g).pins = g.pins := by
  unfold rebuildState
  dsimp only
  set g4 : GraphNodeState :=
    { g with pins := ([] : List UEdGraphPin), inputPins := [], outputPins := [] } with hg4
  have hni4 : g4.nodeInstance = some (FlowNodeInstance.addOn a) := hni
  have halloc : UFlowGraphNode.AllocateDefaultPins g4 = g4 :=
    allocateDefaultPins_not_flowNode g4 (not_flowNode_of_addOn hni4)
  rw [halloc]
  exact rewire_allStable env g4 g.pins (by rw [hg4])
    (fun q hq => ⟨(hall q hq).1, (hall q hq).2.1, (hall q hq).2.2.1⟩)
    (fun q hq => (hall q hq).2.2.2)

lemma shouldRefresh_congr (env : FlowEditorEnv) {g g' : GraphNodeState} (n : UFlowNode)
    (h1 : g.hasOwnerGraph = g'.hasOwnerGraph)
    (h2 : UFlowGraphNode.SupportsContextPins g = UFlowGraphNode.SupportsContextPins g')
    (h3 : g.bNeedsFullReconstruction = g'.bNeedsFullReconstruction) :
    shouldRefreshContextPins env g n = shouldRefreshContextPins env g' n := by
  unfold shouldRefreshContextPins
  rw [h1, h2, h3]

/-- C1: for every graph node in a stable state (the managed-pin recompute finds
nothing to change), calling `ReconstructNode` twice in succession with no intervening
change to the node instance, its descriptor sequences, or the graph produces an
identical pin sequence both times: same pin names, same order, same orphaned flags. -/
theorem C1_reconstruct_idempotent (env : FlowEditorEnv) (gn : GraphNodeState)
    (hstable : ∀ m, env.updateManagedPins m = m) :
    (UFlowGraphNode.ReconstructNode env
        (UFlowGraphNode.ReconstructNode env gn).state).state.pins.map pinSig =
      (UFlowGraphNode.ReconstructNode env gn).state.pins.map pinSig := by
  cases hcan : UFlowGraphNode.CanReconstructNode env gn with
  | false =>
    have h1 := reconstructNode_guard_false_eq env gn hcan
    rw [h1]
    show (UFlowGraphNode.ReconstructNode env gn).state.pins.map pinSig = gn.pins.map pinSig
    rw [h1]
  | true =>
    obtain ⟨htr, hrec, hdes, hnis, hog, hsav, hlok⟩ :=
      (canReconstructNode_eq_true_iff env gn).mp hcan
    have hauto := tryUpdateAutoDataPins_stable env
      { gn with bIsReconstructingNode := true } hstable
    obtain ⟨b2, g3, hupd⟩ :
        ∃ b2 g3, UFlowGraphNode.TryUpdateNodePins env
          { gn with bIsReconstructingNode := true } = (b2, g3) := ⟨_, _, rfl⟩
    by_cases hreq : (g3.bNeedsFullReconstruction || b2 ||
        !UFlowGraphNode.CheckGraphPinsMatchNodePins g3) = true
    · -- something changed: the first call rebuilds; the second then finds a fixpoint
      have hst1 : (UFlowGraphNode.ReconstructNode env gn).state = rebuildState env g3 :=
        reconstructNode_rebuild_state env gn b2 g3 hcan hauto hupd hreq
      rcases rebuildState_shape env g3 with ⟨ps, is, os, hshape⟩
      cases hni : gn.nodeInstance with
      | none => exact absurd hni hnis
      | some inst =>
        cases inst with
        | flowNode n0 =>
          have hni1 : ({ gn with bIsReconstructingNode := true } :
              GraphNodeState).nodeInstance = some (FlowNodeInstance.flowNode n0) := hni
          by_cases hr : shouldRefreshContextPins env
            { gn with bIsReconstructingNode := true } n0 = true
          · -- refresh path: after the update the stored descriptors match the required
            rcases tryUpdateNodePins_post env { gn with bIsReconstructingNode := true } n0
              hni1 hr with ⟨b2x, n2, heq, hsup, hcrl, hin2, hout2⟩
            have hg3 : g3 = { ({ gn with bIsReconstructingNode := true } : GraphNodeState) with
                nodeInstance := some (FlowNodeInstance.flowNode n2) } :=
              congrArg Prod.snd (hupd.symm.trans heq)
            have hni3 : g3.nodeInstance = some (FlowNodeInstance.flowNode n2) := by
              rw [hg3]
            have hcheck := rebuildState_check env g3 n2 hni3
            have hniS : (rebuildState env g3).nodeInstance =
                some (FlowNodeInstance.flowNode n2) := by
              rw [hshape]; exact hni3
            have hrecS : (rebuildState env g3).bIsReconstructingNode = false := by
              rw [hshape]
            have hnfS : (rebuildState env g3).bNeedsFullReconstruction = false := by
              rw [hshape]
            have hdesS : (rebuildState env g3).bIsDestroyingNode = false := by
              rw [hshape, hg3]; exact hdes
            have hogS : (rebuildState env g3).hasOwnerGraph = true := by
              rw [hshape, hg3]; exact hog
            have hcan2 : UFlowGraphNode.CanReconstructNode env (rebuildState env g3) = true :=
              (canReconstructNode_eq_true_iff env _).mpr
                ⟨htr, hrecS, hdesS, by rw [hniS]; simp, hogS, hsav, hlok⟩
            have hniS' : ({ rebuildState env g3 with bIsReconstructingNode := true } :
                GraphNodeState).nodeInstance = some (FlowNodeInstance.flowNode n2) := hniS
            have hupd2 := tryUpdateNodePins_matched env
              { rebuildState env g3 with bIsReconstructingNode := true } n2 hniS' hin2 hout2
            have hfix := reconstructNode_fixpoint env (rebuildState env g3) hstable hcan2
              hnfS hupd2 hcheck
            rw [hst1, hfix]
          · -- no-refresh path: the stored descriptors are left alone, yet the graph
            -- pins mismatched; the rebuild realigns them and the second call
            -- again skips the refresh
            have hrf : shouldRefreshContextPins env
                { gn with bIsReconstructingNode := true } n0 = false := by
              cases hb : shouldRefreshContextPins env
                  { gn with bIsReconstructingNode := true } n0 with
              | true => exact absurd hb hr
              | false => rfl
            have hupdn := tryUpdateNodePins_noRefresh env
              { gn with bIsReconstructingNode := true } n0 hni1 hrf
            have hg3 : g3 = { gn with bIsReconstructingNode := true } :=
              congrArg Prod.snd (hupd.symm.trans hupdn)
            have hni3 : g3.nodeInstance = some (FlowNodeInstance.flowNode n0) := by
              rw [hg3]; exact hni
            have hrfparts := hrf
            unfold shouldRefreshContextPins at hrfparts
            rcases bool_or_false_split hrfparts with ⟨_, hnf1⟩
            have hcheck := rebuildState_check env g3 n0 hni3
            have hniS : (rebuildState env g3).nodeInstance =
                some (FlowNodeInstance.flowNode n0) := by
              rw [hshape]; exact hni3
            have hrecS : (rebuildState env g3).bIsReconstructingNode = false := by
              rw [hshape]
            have hnfS : (rebuildState env g3).bNeedsFullReconstruction = false := by
              rw [hshape]
            have hdesS : (rebuildState env g3).bIsDestroyingNode = false := by
              rw [hshape, hg3]; exact hdes
            have hogS : (rebuildState env g3).hasOwnerGraph = true := by
              rw [hshape, hg3]; exact hog
            have hcan2 : UFlowGraphNode.CanReconstructNode env (rebuildState env g3) = true :=
              (canReconstructNode_eq_true_iff env _).mpr
                ⟨htr, hrecS, hdesS, by rw [hniS]; simp, hogS, hsav, hlok⟩
            have hniS' : ({ rebuildState env g3 with bIsReconstructingNode := true } :
                GraphNodeState).nodeInstance = some (FlowNodeInstance.flowNode n0) := hniS
            have hsup1 : UFlowGraphNode.SupportsContextPins
                { gn with bIsReconstructingNode := true } = n0.supportsContextPins :=
              supportsContextPins_of_flowNode _ n0 hni1
            have hsup2 : UFlowGraphNode.SupportsContextPins
                { rebuildState env g3 with bIsReconstructingNode := true } =
                n0.supportsContextPins :=
              supportsContextPins_of_flowNode _ n0 hniS'
            have hA : ({ rebuildState env g3 with bIsReconstructingNode := true } :
                GraphNodeState).hasOwnerGraph =
                ({ gn with bIsReconstructingNode := true } :
                GraphNodeState).hasOwnerGraph := by
              rw [hshape, hg3]
            have hB : UFlowGraphNode.SupportsContextPins
                { rebuildState env g3 with bIsReconstructingNode := true } =
                UFlowGraphNode.SupportsContextPins
                { gn with bIsReconstructingNode := true } := by
              rw [hsup2, hsup1]
            have hC : ({ rebuildState env g3 with bIsReconstructingNode := true } :
                GraphNodeState).bNeedsFullReconstruction =
                ({ gn with bIsReconstructingNode := true } :
                GraphNodeState).bNeedsFullReconstruction := by
              rw [hshape, hnf1]
            have hrf2 : shouldRefreshContextPins env
                { rebuildState env g3 with bIsReconstructingNode := true } n0 = false :=
              (shouldRefresh_congr env n0 hA hB hC).trans hrf
            have hupd2 := tryUpdateNodePins_noRefresh env
              { rebuildState env g3 with bIsReconstructingNode := true } n0 hniS' hrf2
            have hfix := reconstructNode_fixpoint env (rebuildState env g3) hstable hcan2
              hnfS hupd2 hcheck
            rw [hst1, hfix]
        | addOn a =>
          -- the instance is not a flow node: both calls take the rebuild branch with
          -- an empty allocation, and the orphan collection is stable
          have hni1 : ({ gn with bIsReconstructingNode := true } :
              GraphNodeState).nodeInstance = some (FlowNodeInstance.addOn a) := hni
          have hupda := tryUpdateNodePins_addOn env
            { gn with bIsReconstructingNode := true } a hni1
          have hg3 : g3 = { gn with bIsReconstructingNode := true } :=
            congrArg Prod.snd (hupd.symm.trans hupda)
          have hni3 : g3.nodeInstance = some (FlowNodeInstance.addOn a) := by
            rw [hg3]; exact hni
          have hall1 := rebuildState_addOn_allStable env g3 a hni3
          have hniS : (rebuildState env g3).nodeInstance =
              some (FlowNodeInstance.addOn a) := by
            rw [hshape]; exact hni3
          have hrecS : (rebuildState env g3).bIsReconstructingNode = false := by
            rw [hshape]
          have hdesS : (rebuildState env g3).bIsDestroyingNode = false := by
            rw [hshape, hg3]; exact hdes
          have hogS : (rebuildState env g3).hasOwnerGraph = true := by
            rw [hshape, hg3]; exact hog
          have hcan2 : UFlowGraphNode.CanReconstructNode env (rebuildState env g3) = true :=
            (canReconstructNode_eq_true_iff env _).mpr
              ⟨htr, hrecS, hdesS, by rw [hniS]; simp, hogS, hsav, hlok⟩
          have hauto2 := tryUpdateAutoDataPins_stable env
            { rebuildState env g3 with bIsReconstructingNode := true } hstable
          have hniS' : ({ rebuildState env g3 with bIsReconstructingNode := true } :
              GraphNodeState).nodeInstance = some (FlowNodeInstance.addOn a) := hniS
          have hupd2 := tryUpdateNodePins_addOn env
            { rebuildState env g3 with bIsReconstructingNode := true } a hniS'
          have hreq2 : (({ rebuildState env g3 with bIsReconstructingNode := true } :
              GraphNodeState).bNeedsFullReconstruction || true ||
              !UFlowGraphNode.CheckGraphPinsMatchNodePins
                { rebuildState env g3 with bIsReconstructingNode := true }) = true := by
            simp
          have hst2 : (UFlowGraphNode.ReconstructNode env (rebuildState env g3)).state =
              rebuildState env { rebuildState env g3 with bIsReconstructingNode := true } :=
            reconstructNode_rebuild_state env (rebuildState env g3) true
              { rebuildState env g3 with bIsReconstructingNode := true } hcan2 hauto2
              hupd2 hreq2
          have hdis0 : (rebuildState env g3).bDisableOrphanPinSaving =
              g3.bDisableOrphanPinSaving := by
            rw [hshape]
          have hmode0 : (rebuildState env g3).orphanedPinSaveMode =
              g3.orphanedPinSaveMode := by
            rw [hshape]
          have hstab := rebuildState_addOn_stable env
            { rebuildState env g3 with bIsReconstructingNode := true } a hniS'
            (by
              intro q hq
              have hq' : q ∈ (rebuildState env g3).pins := hq
              rcases hall1 q hq' with ⟨hc, h1, h2, h3⟩
              refine ⟨?_, h1, h2, h3⟩
              exact (orphanCondition_congr env hdis0 hmode0 q).trans hc)
          rw [hst1, hst2, hstab]
    · -- nothing changed: the first call already returns the state unchanged
      have hreqf : (g3.bNeedsFullReconstruction || b2 ||
          !UFlowGraphNode.CheckGraphPinsMatchNodePins g3) = false := by
        cases hb : (g3.bNeedsFullReconstruction || b2 ||
            !UFlowGraphNode.CheckGraphPinsMatchNodePins g3) with
        | true => exact absurd hb hreq
        | false => rfl
      rcases bool_or_false_split hreqf with ⟨h12, hchk⟩
      rcases bool_or_false_split h12 with ⟨hnf3, hb2⟩
      have hchk3 : UFlowGraphNode.CheckGraphPinsMatchNodePins g3 = true := by
        cases hb : UFlowGraphNode.CheckGraphPinsMatchNodePins g3 with
        | true => rfl
        | false =>
          rw [hb] at hchk
          simp at hchk
      have hfst : (UFlowGraphNode.TryUpdateNodePins env
          { gn with bIsReconstructingNode := true }).1 = false := by
        rw [hupd]; exact hb2
      have hupdf := tryUpdateNodePins_false env
        { gn with bIsReconstructingNode := true } hfst
      have hg3 : g3 = { gn with bIsReconstructingNode := true } :=
        congrArg Prod.snd (hupd.symm.trans hupdf)
      have hmatch1 : UFlowGraphNode.CheckGraphPinsMatchNodePins
          { gn with bIsReconstructingNode := true } = true := by
        rw [← hg3]; exact hchk3
      have hnf0 : gn.bNeedsFullReconstruction = false := by
        have hx := hnf3
        rw [hg3] at hx
        exact hx
      have hfix0 := reconstructNode_noRebuild env gn hcan hauto hupdf hmatch1 hnf0 hrec
      rw [hfix0]
      show (UFlowGraphNode.ReconstructNode env gn).state.pins.map pinSig =
        gn.pins.map pinSig
      rw [hfix0]

/-- Witness for C1: the sample environment's managed-pin recompute is the identity,
and the two successive reconstructions of the sample node yield the same pin
signature sequence. -/
theorem C1_witness :
    (∀ m, sampleEnv.updateManagedPins m = m) ∧
    (UFlowGraphNode.ReconstructNode sampleEnv
        (UFlowGraphNode.ReconstructNode sampleEnv sampleGraphNode).state).state.pins.map
      pinSig =
      (UFlowGraphNode.ReconstructNode sampleEnv sampleGraphNode).state.pins.map pinSig :=
  ⟨fun _ => rfl,
   C1_reconstruct_idempotent sampleEnv sampleGraphNode (fun _ => rfl)⟩
